import Mathlib

/-!
Shallow embedding of the `CertificateRegistry` Solidity contract
(`contracts/contracts/CertificateRegistry.sol`, the governance variant with
multi-signature issuer updates and signature-gated revocation), together with
proofs of the specification's claims about it.

Modelling conventions:
* `address`, `bytes32`, `bytes16` are natural numbers (`0` is the zero address);
* `bytes` (signature blobs) are lists of byte values;
* Solidity `string` is Lean `String`; `bytes(s).length` is `String.utf8ByteSize`;
* a Solidity `mapping` is a total function with the zero-value default,
  matching EVM storage semantics;
* `keccak256` over structured data is modelled as an injective pairing of the
  encoded fields (the standard collision-freeness idealization);
* ECDSA recovery over an EIP-712 digest is an environment-supplied function
  from the typed message and signature bytes to an optional signer
  (`Option.none` models the recovery revert on malformed signatures);
* a reverting call is `Except.error`; `applyTx` keeps the pre-state on error,
  which is exactly Solidity's roll-back-on-revert semantics;
* unsigned integer arithmetic in the contract (Solidity ^0.8, checked, i.e.
  reverting rather than wrapping) only ever increments small counters
  (`approvals`, `nextIssuerUpdateProposalId`) or compares values, so `Nat`
  is a faithful model of every arithmetic step that can occur.
-/

set_option linter.unusedVariables false

namespace CertificateRegistry

/-- Ethereum `address`, modelled as a natural number; `0` is the zero address. -/
abbrev Address := Nat

/-- Solidity `bytes32` words (hashes, certificate identifiers), modelled as naturals. -/
abbrev Bytes32 := Nat

/-- Solidity `bytes16` salts, modelled as naturals. -/
abbrev Bytes16 := Nat

/-- Raw signature bytes (`bytes`), modelled as a list of byte values. -/
abbrev SigBytes := List Nat

/-- Solidity `enum Status { None, Active, Revoked }`. -/
inductive Status where
  | none
  | active
  | revoked
deriving DecidableEq

/-- Solidity `struct Certificate` of the contract. -/
structure Certificate where
  docHash : Bytes32
  storageURI : String
  issuer : Address
  issuedAt : Nat
  status : Status
  revokeReason : String
  revokedAt : Nat
  issuerSignature : SigBytes
  salt : Bytes16
  revokeSignature : SigBytes
deriving DecidableEq

/-- The zero value of `Certificate`: what an EVM mapping returns for an
absent key. -/
def defaultCertificate : Certificate :=
  { docHash := 0, storageURI := "", issuer := 0, issuedAt := 0,
    status := Status.none, revokeReason := "", revokedAt := 0,
    issuerSignature := [], salt := 0, revokeSignature := [] }

/-- Solidity `enum IssuerUpdateAction { None, Add, Rotate }`. -/
inductive IssuerUpdateAction where
  | none
  | add
  | rotate
deriving DecidableEq

/-- Solidity `struct IssuerUpdateProposal` of the contract. -/
structure IssuerUpdateProposal where
  action : IssuerUpdateAction
  issuer : Address
  newIssuer : Address
  approvals : Nat
  executed : Bool
  createdAt : Nat
deriving DecidableEq

/-- The zero value of `IssuerUpdateProposal` (absent mapping key). -/
def defaultProposal : IssuerUpdateProposal :=
  { action := IssuerUpdateAction.none, issuer := 0, newIssuer := 0,
    approvals := 0, executed := false, createdAt := 0 }

/-- The distinct revert reasons (`require` messages) of the contract, plus the
two reverts inherited from OpenZeppelin `Ownable`. -/
inductive Err where
  | notOwner
  | thresholdZero
  | issuerZero
  | alreadyIssuer
  | notIssuer
  | sameIssuer
  | proposalMissing
  | alreadyExecuted
  | alreadyApproved
  | insufficientApprovals
  | issuerNotAuthorized
  | certificateExists
  | storageURIEmpty
  | issuedAtZero
  | duplicateDocHashIssuer
  | certificateIdMismatch
  | invalidSignature
  | notActive
  | notAuthorized
  | reasonRequired
  | reasonTooLong
  | signatureRequired
  | invalidRevokeSignature
  | ownableInvalidOwner
deriving DecidableEq

/-- The events emitted by the contract. -/
inductive Event where
  | CertificateIssued (certificateId : Bytes32) (issuer : Address)
      (docHash : Bytes32) (storageURI : String) (issuedAt : Nat) (salt : Bytes16)
  | CertificateRevoked (certificateId : Bytes32) (issuer : Address)
      (reason : String) (revokedAt : Nat)
  | IssuerUpdated (issuer : Address) (authorized : Bool)
  | IssuerUpdateThresholdUpdated (threshold : Nat)
  | IssuerUpdateProposed (proposalId : Nat) (action : IssuerUpdateAction)
      (issuer newIssuer : Address) (createdAt : Nat)
  | IssuerUpdateApproved (proposalId : Nat) (approver : Address) (approvals : Nat)
  | IssuerUpdateExecuted (proposalId : Nat) (action : IssuerUpdateAction)
      (issuer newIssuer : Address)
deriving DecidableEq

/-- The EIP-712 typed message signed for `issueCertificate`
(`ISSUE_TYPEHASH` fields, with the `storageURI` carried whole instead of by
its keccak hash, which is equivalent under the collision-freeness
idealization). -/
structure IssueMsg where
  certificateId : Bytes32
  docHash : Bytes32
  storageURI : String
  issuer : Address
  issuedAt : Nat
  chainId : Nat
  salt : Bytes16
deriving DecidableEq

/-- The EIP-712 typed message signed for `revokeCertificate`
(`REVOKE_TYPEHASH` fields). -/
structure RevokeMsg where
  certificateId : Bytes32
  reason : String
  issuer : Address
  chainId : Nat
deriving DecidableEq

/-- The blockchain environment of a contract call: `block.chainid` and the
ECDSA recovery oracle over EIP-712 digests (`ECDSA.recover ∘ _hashTypedDataV4`).
Recovery is a pure function of the typed message and the signature bytes;
`Option.none` models the recovery revert on malformed signatures. -/
structure Env where
  chainId : Nat
  recoverIssueSigner : IssueMsg → SigBytes → Option Address
  recoverRevokeSigner : RevokeMsg → SigBytes → Option Address

/-- Pointwise update of a mapping, i.e. `m[k] = v`. -/
def setFun {α : Type} (f : Nat → α) (k : Nat) (v : α) : Nat → α :=
  fun x => if x = k then v else f x

/-- Pointwise update of a two-key mapping, i.e. `m[k1][k2] = v`. -/
def setFun2 {α : Type} (f : Nat → Nat → α) (k1 k2 : Nat) (v : α) : Nat → Nat → α :=
  fun x y => if x = k1 ∧ y = k2 then v else f x y

/-- Solidity `keccak256(abi.encodePacked(docHash, issuer))`: the duplicate-issuance
guard key, modelled as an injective pairing. -/
def docIssuerKey (docHash : Bytes32) (issuer : Address) : Bytes32 :=
  Nat.pair docHash issuer

/-- Solidity `keccak256(abi.encode(docHash, salt, issuer, block.chainid, issuedAt))`:
the deterministic certificate identifier recomputed by `issueCertificate`,
modelled as an injective pairing of the five encoded fields. -/
def deriveCertificateId (docHash : Bytes32) (salt : Bytes16) (issuer : Address)
    (chainId : Nat) (issuedAt : Nat) : Bytes32 :=
  Nat.pair docHash (Nat.pair salt (Nat.pair issuer (Nat.pair chainId issuedAt)))

/-- The full storage of a deployed `CertificateRegistry` instance
(including the `owner` slot inherited from `Ownable`). -/
structure RegistryState where
  owner : Address
  certificates : Bytes32 → Certificate
  issuedByDocAndIssuer : Bytes32 → Bool
  isAuthorizedIssuer : Address → Bool
  issuerList : List Address
  issuerIndexPlusOne : Address → Nat
  issuerUpdateThreshold : Nat
  nextIssuerUpdateProposalId : Nat
  issuerUpdateProposals : Nat → IssuerUpdateProposal
  issuerUpdateApprovedBy : Nat → Address → Bool

/-- The storage right after `constructor(initialOwner)`: empty mappings and
list, `issuerUpdateThreshold = 1`, `nextIssuerUpdateProposalId = 1`. -/
def initState (initialOwner : Address) : RegistryState :=
  { owner := initialOwner
    certificates := fun _ => defaultCertificate
    issuedByDocAndIssuer := fun _ => false
    isAuthorizedIssuer := fun _ => false
    issuerList := []
    issuerIndexPlusOne := fun _ => 0
    issuerUpdateThreshold := 1
    nextIssuerUpdateProposalId := 1
    issuerUpdateProposals := fun _ => defaultProposal
    issuerUpdateApprovedBy := fun _ _ => false }

/-- Solidity `getCertificate(certificateId)`: total mapping read. -/
def getCertificate (s : RegistryState) (certificateId : Bytes32) : Certificate :=
  s.certificates certificateId

/-- Solidity `certificateStatus(certificateId)`: total mapping read. -/
def certificateStatus (s : RegistryState) (certificateId : Bytes32) : Status :=
  (s.certificates certificateId).status

/-- Solidity `getIssuers()`. -/
def getIssuers (s : RegistryState) : List Address :=
  s.issuerList

/-- Solidity `hasApprovedIssuerUpdate(proposalId, approver)`. -/
def hasApprovedIssuerUpdate (s : RegistryState) (proposalId : Nat) (approver : Address) : Bool :=
  s.issuerUpdateApprovedBy proposalId approver

/-- Solidity `issuerList.push(a); issuerIndexPlusOne[a] = issuerList.length;` — the
push-and-record-index block shared by `addIssuer` and the Add / Rotate
branches of `executeIssuerUpdate`. -/
def pushToIssuerList (s : RegistryState) (a : Address) : RegistryState :=
  { s with
    issuerList := s.issuerList ++ [a]
    issuerIndexPlusOne := setFun s.issuerIndexPlusOne a (s.issuerList.length + 1) }

/-- The swap-with-last-then-pop removal block shared by `removeIssuer` and the
Rotate branch of `executeIssuerUpdate`: looks `a` up in `issuerIndexPlusOne`,
moves the last list entry into its slot (fixing that entry's recorded index),
pops the list and zeroes `issuerIndexPlusOne[a]`.  Out-of-range reads that
Solidity would revert on are modelled by the total `getD`/`set`/`dropLast`;
they are unreachable from states satisfying the list invariant. -/
def removeFromIssuerList (s : RegistryState) (a : Address) : RegistryState :=
  let idxPlusOne := s.issuerIndexPlusOne a
  if idxPlusOne ≠ 0 then
    let idx := idxPlusOne - 1
    let lastIdx := s.issuerList.length - 1
    let s1 :=
      if idx ≠ lastIdx then
        let lastIssuer := s.issuerList.getD lastIdx 0
        { s with
          issuerList := s.issuerList.set idx lastIssuer
          issuerIndexPlusOne := setFun s.issuerIndexPlusOne lastIssuer (idx + 1) }
      else s
    { s1 with
      issuerList := s1.issuerList.dropLast
      issuerIndexPlusOne := setFun s1.issuerIndexPlusOne a 0 }
  else s

/-- The authorize-and-push block
`isAuthorizedIssuer[a] = true; issuerList.push(a); issuerIndexPlusOne[a] = issuerList.length;`
appearing verbatim in `addIssuer` and in the Add and Rotate branches of
`executeIssuerUpdate`. -/
def authorizeAndPush (s : RegistryState) (a : Address) : RegistryState :=
  pushToIssuerList { s with isAuthorizedIssuer := setFun s.isAuthorizedIssuer a true } a

/-- The deauthorize-and-swap-remove block
`isAuthorizedIssuer[a] = false;` followed by the swap-with-last-then-pop list
removal, appearing verbatim in `removeIssuer` and in the Rotate branch of
`executeIssuerUpdate`. -/
def deauthorizeAndRemove (s : RegistryState) (a : Address) : RegistryState :=
  removeFromIssuerList { s with isAuthorizedIssuer := setFun s.isAuthorizedIssuer a false } a

/-- Solidity `setIssuerUpdateThreshold(threshold)`: owner-only, rejects zero. -/
def setIssuerUpdateThreshold (s : RegistryState) (sender : Address) (threshold : Nat) :
    Except Err (RegistryState × List Event) :=
  if sender ≠ s.owner then .error .notOwner
  else if threshold = 0 then .error .thresholdZero
  else .ok ({ s with issuerUpdateThreshold := threshold },
            [Event.IssuerUpdateThresholdUpdated threshold])

/-- Solidity `addIssuer(issuer)`: owner-only; rejects the zero address and already
authorized issuers; authorizes and appends to the enumeration list. -/
def addIssuer (s : RegistryState) (sender issuer : Address) :
    Except Err (RegistryState × List Event) :=
  if sender ≠ s.owner then .error .notOwner
  else if issuer = 0 then .error .issuerZero
  else if s.isAuthorizedIssuer issuer then .error .alreadyIssuer
  else .ok (authorizeAndPush s issuer, [Event.IssuerUpdated issuer true])

/-- Solidity `removeIssuer(issuer)`: owner-only; requires the issuer to be authorized;
deauthorizes and removes from the enumeration list by swap-with-last. -/
def removeIssuer (s : RegistryState) (sender issuer : Address) :
    Except Err (RegistryState × List Event) :=
  if sender ≠ s.owner then .error .notOwner
  else if ¬ s.isAuthorizedIssuer issuer then .error .notIssuer
  else .ok (deauthorizeAndRemove s issuer, [Event.IssuerUpdated issuer false])

/-- Solidity `proposeAddIssuer(newIssuer)`: owner-only; allocates the next proposal id
and stores an Add proposal with zero approvals. -/
def proposeAddIssuer (s : RegistryState) (sender newIssuer : Address) (now : Nat) :
    Except Err (RegistryState × List Event) :=
  if sender ≠ s.owner then .error .notOwner
  else if newIssuer = 0 then .error .issuerZero
  else if s.isAuthorizedIssuer newIssuer then .error .alreadyIssuer
  else
    let proposalId := s.nextIssuerUpdateProposalId
    let p : IssuerUpdateProposal :=
      { action := IssuerUpdateAction.add, issuer := 0, newIssuer := newIssuer,
        approvals := 0, executed := false, createdAt := now }
    .ok ({ s with
            nextIssuerUpdateProposalId := proposalId + 1
            issuerUpdateProposals := setFun s.issuerUpdateProposals proposalId p },
         [Event.IssuerUpdateProposed proposalId IssuerUpdateAction.add 0 newIssuer now])

/-- Solidity `proposeRotateIssuer(issuer, newIssuer)`: owner-only; the old issuer must
be authorized, the new one must be fresh, nonzero and distinct. -/
def proposeRotateIssuer (s : RegistryState) (sender issuer newIssuer : Address) (now : Nat) :
    Except Err (RegistryState × List Event) :=
  if sender ≠ s.owner then .error .notOwner
  else if ¬ s.isAuthorizedIssuer issuer then .error .notIssuer
  else if newIssuer = 0 then .error .issuerZero
  else if s.isAuthorizedIssuer newIssuer then .error .alreadyIssuer
  else if issuer = newIssuer then .error .sameIssuer
  else
    let proposalId := s.nextIssuerUpdateProposalId
    let p : IssuerUpdateProposal :=
      { action := IssuerUpdateAction.rotate, issuer := issuer, newIssuer := newIssuer,
        approvals := 0, executed := false, createdAt := now }
    .ok ({ s with
            nextIssuerUpdateProposalId := proposalId + 1
            issuerUpdateProposals := setFun s.issuerUpdateProposals proposalId p },
         [Event.IssuerUpdateProposed proposalId IssuerUpdateAction.rotate issuer newIssuer now])

/-- Solidity `approveIssuerUpdate(proposalId)`: the caller must be a currently
authorized issuer; rejects missing, executed and already-approved proposals;
records the approval and increments the count. -/
def approveIssuerUpdate (s : RegistryState) (sender : Address) (proposalId : Nat) :
    Except Err (RegistryState × List Event) :=
  if ¬ s.isAuthorizedIssuer sender then .error .issuerNotAuthorized
  else
    let p := s.issuerUpdateProposals proposalId
    if p.action = IssuerUpdateAction.none then .error .proposalMissing
    else if p.executed then .error .alreadyExecuted
    else if s.issuerUpdateApprovedBy proposalId sender then .error .alreadyApproved
    else
      .ok ({ s with
              issuerUpdateApprovedBy := setFun2 s.issuerUpdateApprovedBy proposalId sender true
              issuerUpdateProposals :=
                setFun s.issuerUpdateProposals proposalId { p with approvals := p.approvals + 1 } },
           [Event.IssuerUpdateApproved proposalId sender (p.approvals + 1)])

/-- Solidity `p.executed = true;` — the state with proposal `proposalId` marked
executed, the first mutation of `executeIssuerUpdate`. -/
def markProposalExecuted (s : RegistryState) (proposalId : Nat) : RegistryState :=
  { s with
    issuerUpdateProposals := setFun s.issuerUpdateProposals proposalId
      { s.issuerUpdateProposals proposalId with executed := true } }

/-- Solidity `executeIssuerUpdate(proposalId)`: owner-only; rejects missing and
executed proposals and insufficient approvals (against the *current*
threshold); re-validates the action's preconditions against current state,
applies it and marks the proposal executed.  A revert anywhere rolls the
whole call back, so the `executed` flag only persists on success. -/
def executeIssuerUpdate (s : RegistryState) (sender : Address) (proposalId : Nat) :
    Except Err (RegistryState × List Event) :=
  if sender ≠ s.owner then .error .notOwner
  else
    let p := s.issuerUpdateProposals proposalId
    if p.action = IssuerUpdateAction.none then .error .proposalMissing
    else if p.executed then .error .alreadyExecuted
    else if p.approvals < s.issuerUpdateThreshold then .error .insufficientApprovals
    else
      let sExec := markProposalExecuted s proposalId
      match p.action with
      | IssuerUpdateAction.add =>
          if p.newIssuer = 0 then .error .issuerZero
          else if sExec.isAuthorizedIssuer p.newIssuer then .error .alreadyIssuer
          else
            .ok (authorizeAndPush sExec p.newIssuer,
                 [Event.IssuerUpdated p.newIssuer true,
                  Event.IssuerUpdateExecuted proposalId p.action p.issuer p.newIssuer])
      | IssuerUpdateAction.rotate =>
          if ¬ sExec.isAuthorizedIssuer p.issuer then .error .notIssuer
          else if p.newIssuer = 0 then .error .issuerZero
          else if sExec.isAuthorizedIssuer p.newIssuer then .error .alreadyIssuer
          else
            .ok (authorizeAndPush (deauthorizeAndRemove sExec p.issuer) p.newIssuer,
                 [Event.IssuerUpdated p.issuer false,
                  Event.IssuerUpdated p.newIssuer true,
                  Event.IssuerUpdateExecuted proposalId p.action p.issuer p.newIssuer])
      | IssuerUpdateAction.none =>
          .ok (sExec, [Event.IssuerUpdateExecuted proposalId p.action p.issuer p.newIssuer])

/-- Solidity `issueCertificate(certificateId, docHash, storageURI, issuer, issuedAt,
salt, issuerSignature)`: the seven `require`s in source order, then record
creation, duplicate-guard marking and the `CertificateIssued` event. -/
def issueCertificate (env : Env) (s : RegistryState)
    (certificateId docHash : Bytes32) (storageURI : String) (issuer : Address)
    (issuedAt : Nat) (salt : Bytes16) (issuerSignature : SigBytes) :
    Except Err (RegistryState × List Event) :=
  if ¬ s.isAuthorizedIssuer issuer then .error .issuerNotAuthorized
  else if (s.certificates certificateId).status ≠ Status.none then .error .certificateExists
  else if storageURI.utf8ByteSize = 0 then .error .storageURIEmpty
  else if issuedAt = 0 then .error .issuedAtZero
  else if s.issuedByDocAndIssuer (docIssuerKey docHash issuer) then .error .duplicateDocHashIssuer
  else if deriveCertificateId docHash salt issuer env.chainId issuedAt ≠ certificateId then
    .error .certificateIdMismatch
  else
    match env.recoverIssueSigner
      { certificateId := certificateId, docHash := docHash, storageURI := storageURI,
        issuer := issuer, issuedAt := issuedAt, chainId := env.chainId, salt := salt }
      issuerSignature with
    | Option.none => .error .invalidSignature
    | Option.some signer =>
      if signer ≠ issuer then .error .invalidSignature
      else
        let cert : Certificate :=
          { docHash := docHash, storageURI := storageURI, issuer := issuer,
            issuedAt := issuedAt, status := Status.active, revokeReason := "",
            revokedAt := 0, issuerSignature := issuerSignature, salt := salt,
            revokeSignature := [] }
        .ok ({ s with
                certificates := setFun s.certificates certificateId cert
                issuedByDocAndIssuer :=
                  setFun s.issuedByDocAndIssuer (docIssuerKey docHash issuer) true },
             [Event.CertificateIssued certificateId issuer docHash storageURI issuedAt salt])

/-- Solidity `revokeCertificate(certificateId, reason, issuerSignature)`: requires an
Active record, caller owner or the record's issuer, a reason of 1–256 bytes
and a nonempty signature recovering to the record's issuer; then flips the
status to Revoked and stores the revocation data. -/
def revokeCertificate (env : Env) (s : RegistryState) (sender : Address)
    (certificateId : Bytes32) (reason : String) (issuerSignature : SigBytes) (now : Nat) :
    Except Err (RegistryState × List Event) :=
  let cert := s.certificates certificateId
  if cert.status ≠ Status.active then .error .notActive
  else if ¬ (sender = s.owner ∨ sender = cert.issuer) then .error .notAuthorized
  else if reason.utf8ByteSize = 0 then .error .reasonRequired
  else if reason.utf8ByteSize > 256 then .error .reasonTooLong
  else if issuerSignature.length = 0 then .error .signatureRequired
  else
    match env.recoverRevokeSigner
      { certificateId := certificateId, reason := reason, issuer := cert.issuer,
        chainId := env.chainId } issuerSignature with
    | Option.none => .error .invalidRevokeSignature
    | Option.some signer =>
      if signer ≠ cert.issuer then .error .invalidRevokeSignature
      else
        let cert1 := { cert with
          status := Status.revoked, revokeReason := reason,
          revokedAt := now, revokeSignature := issuerSignature }
        .ok ({ s with certificates := setFun s.certificates certificateId cert1 },
             [Event.CertificateRevoked certificateId cert.issuer reason now])

/-- Solidity `transferOwnership(newOwner)` inherited from OpenZeppelin `Ownable`:
owner-only, rejects the zero address. -/
def transferOwnership (s : RegistryState) (sender newOwner : Address) :
    Except Err (RegistryState × List Event) :=
  if sender ≠ s.owner then .error .notOwner
  else if newOwner = 0 then .error .ownableInvalidOwner
  else .ok ({ s with owner := newOwner }, [])

/-- Solidity `renounceOwnership()` inherited from OpenZeppelin `Ownable`. -/
def renounceOwnership (s : RegistryState) (sender : Address) :
    Except Err (RegistryState × List Event) :=
  if sender ≠ s.owner then .error .notOwner
  else .ok ({ s with owner := 0 }, [])

/-- One externally submitted state-changing transaction against the
contract, with its caller and, where the contract reads it, the block
timestamp. -/
inductive Tx where
  | setIssuerUpdateThreshold (sender : Address) (threshold : Nat)
  | addIssuer (sender issuer : Address)
  | removeIssuer (sender issuer : Address)
  | proposeAddIssuer (sender newIssuer : Address) (now : Nat)
  | proposeRotateIssuer (sender issuer newIssuer : Address) (now : Nat)
  | approveIssuerUpdate (sender : Address) (proposalId : Nat)
  | executeIssuerUpdate (sender : Address) (proposalId : Nat)
  | issueCertificate (certificateId docHash : Bytes32) (storageURI : String)
      (issuer : Address) (issuedAt : Nat) (salt : Bytes16) (issuerSignature : SigBytes)
  | revokeCertificate (sender : Address) (certificateId : Bytes32) (reason : String)
      (issuerSignature : SigBytes) (now : Nat)
  | transferOwnership (sender newOwner : Address)
  | renounceOwnership (sender : Address)

/-- Dispatch one transaction to its entry point. -/
def stepTx (env : Env) (s : RegistryState) : Tx → Except Err (RegistryState × List Event)
  | Tx.setIssuerUpdateThreshold sender t => setIssuerUpdateThreshold s sender t
  | Tx.addIssuer sender issuer => addIssuer s sender issuer
  | Tx.removeIssuer sender issuer => removeIssuer s sender issuer
  | Tx.proposeAddIssuer sender newIssuer now => proposeAddIssuer s sender newIssuer now
  | Tx.proposeRotateIssuer sender issuer newIssuer now =>
      proposeRotateIssuer s sender issuer newIssuer now
  | Tx.approveIssuerUpdate sender proposalId => approveIssuerUpdate s sender proposalId
  | Tx.executeIssuerUpdate sender proposalId => executeIssuerUpdate s sender proposalId
  | Tx.issueCertificate certificateId docHash storageURI issuer issuedAt salt sig =>
      issueCertificate env s certificateId docHash storageURI issuer issuedAt salt sig
  | Tx.revokeCertificate sender certificateId reason sig now =>
      revokeCertificate env s sender certificateId reason sig now
  | Tx.transferOwnership sender newOwner => transferOwnership s sender newOwner
  | Tx.renounceOwnership sender => renounceOwnership s sender

/-- The state after a transaction: the new state on success, the unchanged
pre-state on revert (Solidity's roll-back semantics). -/
def applyTx (env : Env) (s : RegistryState) (t : Tx) : RegistryState :=
  match stepTx env s t with
  | .ok p => p.1
  | .error _ => s

/-- Fold a transaction sequence over the state. -/
def applyTxs (env : Env) (s : RegistryState) : List Tx → RegistryState
  | [] => s
  | t :: ts => applyTxs env (applyTx env s t) ts

/-- Whether a call succeeded. -/
def isOk {ε α : Type} : Except ε α → Bool
  | .ok _ => true
  | .error _ => false

/-- Numeric rank of the certificate lifecycle: None < Active < Revoked. -/
def statusRank : Status → Nat
  | Status.none => 0
  | Status.active => 1
  | Status.revoked => 2

/-- Consistency of the issuer allow-list with its enumeration list and the
1-based index bookkeeping: the list has no duplicates, membership coincides
with the `isAuthorizedIssuer` flag, and `issuerIndexPlusOne` records the
1-based position of every entry. -/
def IssuerListInv (s : RegistryState) : Prop :=
  s.issuerList.Nodup ∧
  (∀ a, s.isAuthorizedIssuer a = true ↔ a ∈ s.issuerList) ∧
  (∀ i : Fin s.issuerList.length, s.issuerIndexPlusOne (s.issuerList.get i) = i.val + 1)

/-- Every certificate record that has left the None status has its
`(docHash, issuer)` duplicate guard set. -/
def CertGuardInv (s : RegistryState) : Prop :=
  ∀ id, (s.certificates id).status ≠ Status.none →
    s.issuedByDocAndIssuer (docIssuerKey (s.certificates id).docHash (s.certificates id).issuer) = true

/-- At most one Active-or-Revoked certificate record exists per
`(docHash, issuer)` pair. -/
def CertUniqueInv (s : RegistryState) : Prop :=
  ∀ id1 id2, (s.certificates id1).status ≠ Status.none →
    (s.certificates id2).status ≠ Status.none →
    (s.certificates id1).docHash = (s.certificates id2).docHash →
    (s.certificates id1).issuer = (s.certificates id2).issuer →
    id1 = id2

/-- A certificate slot still in the None status holds the zero record. -/
def CertDefaultInv (s : RegistryState) : Prop :=
  ∀ id, (s.certificates id).status = Status.none → s.certificates id = defaultCertificate

/-- A concrete environment used to exercise the model on closed inputs:
chain id 1, and an idealized signature scheme in which a valid signature is
the one-element byte list naming its signer. -/
def sampleEnv : Env :=
  { chainId := 1
    recoverIssueSigner := fun _ sig => sig.head?
    recoverRevokeSigner := fun _ sig => sig.head? }

/-! ## Generic lemmas about transaction sequences -/

theorem applyTxs_nil (env : Env) (s : RegistryState) : applyTxs env s [] = s := rfl

theorem applyTxs_cons (env : Env) (s : RegistryState) (t : Tx) (ts : List Tx) :
    applyTxs env s (t :: ts) = applyTxs env (applyTx env s t) ts := rfl

/-- An invariant preserved by every single transaction holds along every
transaction sequence. -/
theorem applyTxs_invariant {P : RegistryState → Prop} (env : Env)
    (step : ∀ s t, P s → P (applyTx env s t)) :
    ∀ (txs : List Tx) (s : RegistryState), P s → P (applyTxs env s txs) := by
  intro txs
  induction txs with
  | nil => intro s h; exact h
  | cons t ts ih => intro s h; exact ih (applyTx env s t) (step s t h)

/-! ## Frame lemmas for the helper state transformers -/

@[simp] theorem markProposalExecuted_owner (s : RegistryState) (pid : Nat) :
    (markProposalExecuted s pid).owner = s.owner := rfl

@[simp] theorem markProposalExecuted_certificates (s : RegistryState) (pid : Nat) :
    (markProposalExecuted s pid).certificates = s.certificates := rfl

@[simp] theorem markProposalExecuted_issuedByDocAndIssuer (s : RegistryState) (pid : Nat) :
    (markProposalExecuted s pid).issuedByDocAndIssuer = s.issuedByDocAndIssuer := rfl

@[simp] theorem markProposalExecuted_isAuthorizedIssuer (s : RegistryState) (pid : Nat) :
    (markProposalExecuted s pid).isAuthorizedIssuer = s.isAuthorizedIssuer := rfl

@[simp] theorem markProposalExecuted_issuerList (s : RegistryState) (pid : Nat) :
    (markProposalExecuted s pid).issuerList = s.issuerList := rfl

@[simp] theorem markProposalExecuted_issuerIndexPlusOne (s : RegistryState) (pid : Nat) :
    (markProposalExecuted s pid).issuerIndexPlusOne = s.issuerIndexPlusOne := rfl

@[simp] theorem markProposalExecuted_issuerUpdateThreshold (s : RegistryState) (pid : Nat) :
    (markProposalExecuted s pid).issuerUpdateThreshold = s.issuerUpdateThreshold := rfl

@[simp] theorem markProposalExecuted_issuerUpdateApprovedBy (s : RegistryState) (pid : Nat) :
    (markProposalExecuted s pid).issuerUpdateApprovedBy = s.issuerUpdateApprovedBy := rfl

theorem markProposalExecuted_issuerUpdateProposals (s : RegistryState) (pid : Nat) :
    (markProposalExecuted s pid).issuerUpdateProposals =
      setFun s.issuerUpdateProposals pid
        { s.issuerUpdateProposals pid with executed := true } := rfl

@[simp] theorem pushToIssuerList_owner (s : RegistryState) (a : Address) :
    (pushToIssuerList s a).owner = s.owner := rfl

@[simp] theorem pushToIssuerList_certificates (s : RegistryState) (a : Address) :
    (pushToIssuerList s a).certificates = s.certificates := rfl

@[simp] theorem pushToIssuerList_issuedByDocAndIssuer (s : RegistryState) (a : Address) :
    (pushToIssuerList s a).issuedByDocAndIssuer = s.issuedByDocAndIssuer := rfl

@[simp] theorem pushToIssuerList_isAuthorizedIssuer (s : RegistryState) (a : Address) :
    (pushToIssuerList s a).isAuthorizedIssuer = s.isAuthorizedIssuer := rfl

@[simp] theorem pushToIssuerList_issuerUpdateThreshold (s : RegistryState) (a : Address) :
    (pushToIssuerList s a).issuerUpdateThreshold = s.issuerUpdateThreshold := rfl

@[simp] theorem pushToIssuerList_issuerUpdateProposals (s : RegistryState) (a : Address) :
    (pushToIssuerList s a).issuerUpdateProposals = s.issuerUpdateProposals := rfl

@[simp] theorem pushToIssuerList_issuerUpdateApprovedBy (s : RegistryState) (a : Address) :
    (pushToIssuerList s a).issuerUpdateApprovedBy = s.issuerUpdateApprovedBy := rfl

@[simp] theorem pushToIssuerList_issuerList (s : RegistryState) (a : Address) :
    (pushToIssuerList s a).issuerList = s.issuerList ++ [a] := rfl

@[simp] theorem removeFromIssuerList_owner (s : RegistryState) (a : Address) :
    (removeFromIssuerList s a).owner = s.owner := by
  simp only [removeFromIssuerList]; (repeat' split) <;> rfl

@[simp] theorem removeFromIssuerList_certificates (s : RegistryState) (a : Address) :
    (removeFromIssuerList s a).certificates = s.certificates := by
  simp only [removeFromIssuerList]; (repeat' split) <;> rfl

@[simp] theorem removeFromIssuerList_issuedByDocAndIssuer (s : RegistryState) (a : Address) :
    (removeFromIssuerList s a).issuedByDocAndIssuer = s.issuedByDocAndIssuer := by
  simp only [removeFromIssuerList]; (repeat' split) <;> rfl

@[simp] theorem removeFromIssuerList_isAuthorizedIssuer (s : RegistryState) (a : Address) :
    (removeFromIssuerList s a).isAuthorizedIssuer = s.isAuthorizedIssuer := by
  simp only [removeFromIssuerList]; (repeat' split) <;> rfl

@[simp] theorem removeFromIssuerList_issuerUpdateThreshold (s : RegistryState) (a : Address) :
    (removeFromIssuerList s a).issuerUpdateThreshold = s.issuerUpdateThreshold := by
  simp only [removeFromIssuerList]; (repeat' split) <;> rfl

@[simp] theorem removeFromIssuerList_issuerUpdateProposals (s : RegistryState) (a : Address) :
    (removeFromIssuerList s a).issuerUpdateProposals = s.issuerUpdateProposals := by
  simp only [removeFromIssuerList]; (repeat' split) <;> rfl

@[simp] theorem removeFromIssuerList_issuerUpdateApprovedBy (s : RegistryState) (a : Address) :
    (removeFromIssuerList s a).issuerUpdateApprovedBy = s.issuerUpdateApprovedBy := by
  simp only [removeFromIssuerList]; (repeat' split) <;> rfl

@[simp] theorem authorizeAndPush_owner (s : RegistryState) (a : Address) :
    (authorizeAndPush s a).owner = s.owner := rfl

@[simp] theorem authorizeAndPush_certificates (s : RegistryState) (a : Address) :
    (authorizeAndPush s a).certificates = s.certificates := rfl

@[simp] theorem authorizeAndPush_issuedByDocAndIssuer (s : RegistryState) (a : Address) :
    (authorizeAndPush s a).issuedByDocAndIssuer = s.issuedByDocAndIssuer := rfl

@[simp] theorem authorizeAndPush_issuerUpdateThreshold (s : RegistryState) (a : Address) :
    (authorizeAndPush s a).issuerUpdateThreshold = s.issuerUpdateThreshold := rfl

@[simp] theorem authorizeAndPush_issuerUpdateProposals (s : RegistryState) (a : Address) :
    (authorizeAndPush s a).issuerUpdateProposals = s.issuerUpdateProposals := rfl

@[simp] theorem authorizeAndPush_issuerUpdateApprovedBy (s : RegistryState) (a : Address) :
    (authorizeAndPush s a).issuerUpdateApprovedBy = s.issuerUpdateApprovedBy := rfl

@[simp] theorem authorizeAndPush_isAuthorizedIssuer (s : RegistryState) (a : Address) :
    (authorizeAndPush s a).isAuthorizedIssuer = setFun s.isAuthorizedIssuer a true := rfl

@[simp] theorem authorizeAndPush_issuerList (s : RegistryState) (a : Address) :
    (authorizeAndPush s a).issuerList = s.issuerList ++ [a] := rfl

@[simp] theorem deauthorizeAndRemove_owner (s : RegistryState) (a : Address) :
    (deauthorizeAndRemove s a).owner = s.owner := by
  unfold deauthorizeAndRemove; simp

@[simp] theorem deauthorizeAndRemove_certificates (s : RegistryState) (a : Address) :
    (deauthorizeAndRemove s a).certificates = s.certificates := by
  unfold deauthorizeAndRemove; simp

@[simp] theorem deauthorizeAndRemove_issuedByDocAndIssuer (s : RegistryState) (a : Address) :
    (deauthorizeAndRemove s a).issuedByDocAndIssuer = s.issuedByDocAndIssuer := by
  unfold deauthorizeAndRemove; simp

@[simp] theorem deauthorizeAndRemove_issuerUpdateThreshold (s : RegistryState) (a : Address) :
    (deauthorizeAndRemove s a).issuerUpdateThreshold = s.issuerUpdateThreshold := by
  unfold deauthorizeAndRemove; simp

@[simp] theorem deauthorizeAndRemove_issuerUpdateProposals (s : RegistryState) (a : Address) :
    (deauthorizeAndRemove s a).issuerUpdateProposals = s.issuerUpdateProposals := by
  unfold deauthorizeAndRemove; simp

@[simp] theorem deauthorizeAndRemove_issuerUpdateApprovedBy (s : RegistryState) (a : Address) :
    (deauthorizeAndRemove s a).issuerUpdateApprovedBy = s.issuerUpdateApprovedBy := by
  unfold deauthorizeAndRemove; simp

@[simp] theorem deauthorizeAndRemove_isAuthorizedIssuer (s : RegistryState) (a : Address) :
    (deauthorizeAndRemove s a).isAuthorizedIssuer = setFun s.isAuthorizedIssuer a false := by
  unfold deauthorizeAndRemove; simp

/-! ## Success characterizations of the entry points

For every entry point, an if-and-only-if description of when the call
succeeds and, in that case, of the exact post-state and event list. -/

theorem setIssuerUpdateThreshold_eq_ok (s : RegistryState) (sender : Address)
    (threshold : Nat) (s' : RegistryState) (evs : List Event) :
    setIssuerUpdateThreshold s sender threshold = .ok (s', evs) ↔
      (sender = s.owner ∧ threshold ≠ 0 ∧
       s' = { s with issuerUpdateThreshold := threshold } ∧
       evs = [Event.IssuerUpdateThresholdUpdated threshold]) := by
  unfold setIssuerUpdateThreshold
  (repeat' split) <;> simp_all <;> tauto

theorem addIssuer_eq_ok (s : RegistryState) (sender issuer : Address)
    (s' : RegistryState) (evs : List Event) :
    addIssuer s sender issuer = .ok (s', evs) ↔
      (sender = s.owner ∧ issuer ≠ 0 ∧ s.isAuthorizedIssuer issuer = false ∧
       s' = authorizeAndPush s issuer ∧
       evs = [Event.IssuerUpdated issuer true]) := by
  unfold addIssuer
  (repeat' split) <;> simp_all <;> tauto

theorem removeIssuer_eq_ok (s : RegistryState) (sender issuer : Address)
    (s' : RegistryState) (evs : List Event) :
    removeIssuer s sender issuer = .ok (s', evs) ↔
      (sender = s.owner ∧ s.isAuthorizedIssuer issuer = true ∧
       s' = deauthorizeAndRemove s issuer ∧
       evs = [Event.IssuerUpdated issuer false]) := by
  unfold removeIssuer
  (repeat' split) <;> simp_all <;> tauto

theorem proposeAddIssuer_eq_ok (s : RegistryState) (sender newIssuer : Address)
    (now : Nat) (s' : RegistryState) (evs : List Event) :
    proposeAddIssuer s sender newIssuer now = .ok (s', evs) ↔
      (sender = s.owner ∧ newIssuer ≠ 0 ∧ s.isAuthorizedIssuer newIssuer = false ∧
       s' = { s with
               nextIssuerUpdateProposalId := s.nextIssuerUpdateProposalId + 1
               issuerUpdateProposals := setFun s.issuerUpdateProposals s.nextIssuerUpdateProposalId
                 { action := IssuerUpdateAction.add, issuer := 0, newIssuer := newIssuer,
                   approvals := 0, executed := false, createdAt := now } } ∧
       evs = [Event.IssuerUpdateProposed s.nextIssuerUpdateProposalId IssuerUpdateAction.add
                0 newIssuer now]) := by
  unfold proposeAddIssuer
  (repeat' split) <;> simp_all <;> tauto

theorem proposeRotateIssuer_eq_ok (s : RegistryState) (sender issuer newIssuer : Address)
    (now : Nat) (s' : RegistryState) (evs : List Event) :
    proposeRotateIssuer s sender issuer newIssuer now = .ok (s', evs) ↔
      (sender = s.owner ∧ s.isAuthorizedIssuer issuer = true ∧ newIssuer ≠ 0 ∧
       s.isAuthorizedIssuer newIssuer = false ∧ issuer ≠ newIssuer ∧
       s' = { s with
               nextIssuerUpdateProposalId := s.nextIssuerUpdateProposalId + 1
               issuerUpdateProposals := setFun s.issuerUpdateProposals s.nextIssuerUpdateProposalId
                 { action := IssuerUpdateAction.rotate, issuer := issuer, newIssuer := newIssuer,
                   approvals := 0, executed := false, createdAt := now } } ∧
       evs = [Event.IssuerUpdateProposed s.nextIssuerUpdateProposalId IssuerUpdateAction.rotate
                issuer newIssuer now]) := by
  unfold proposeRotateIssuer
  (repeat' split) <;> simp_all <;> tauto

theorem approveIssuerUpdate_eq_ok (s : RegistryState) (sender : Address) (proposalId : Nat)
    (s' : RegistryState) (evs : List Event) :
    approveIssuerUpdate s sender proposalId = .ok (s', evs) ↔
      (s.isAuthorizedIssuer sender = true ∧
       (s.issuerUpdateProposals proposalId).action ≠ IssuerUpdateAction.none ∧
       (s.issuerUpdateProposals proposalId).executed = false ∧
       s.issuerUpdateApprovedBy proposalId sender = false ∧
       s' = { s with
               issuerUpdateApprovedBy := setFun2 s.issuerUpdateApprovedBy proposalId sender true
               issuerUpdateProposals := setFun s.issuerUpdateProposals proposalId
                 { s.issuerUpdateProposals proposalId with
                   approvals := (s.issuerUpdateProposals proposalId).approvals + 1 } } ∧
       evs = [Event.IssuerUpdateApproved proposalId sender
                ((s.issuerUpdateProposals proposalId).approvals + 1)]) := by
  simp only [approveIssuerUpdate]
  (repeat' split) <;> simp_all <;> tauto

theorem executeIssuerUpdate_eq_ok (s : RegistryState) (sender : Address) (proposalId : Nat)
    (s' : RegistryState) (evs : List Event) :
    executeIssuerUpdate s sender proposalId = .ok (s', evs) ↔
      (sender = s.owner ∧
       (s.issuerUpdateProposals proposalId).action ≠ IssuerUpdateAction.none ∧
       (s.issuerUpdateProposals proposalId).executed = false ∧
       s.issuerUpdateThreshold ≤ (s.issuerUpdateProposals proposalId).approvals ∧
       (((s.issuerUpdateProposals proposalId).action = IssuerUpdateAction.add ∧
         (s.issuerUpdateProposals proposalId).newIssuer ≠ 0 ∧
         s.isAuthorizedIssuer (s.issuerUpdateProposals proposalId).newIssuer = false ∧
         s' = authorizeAndPush (markProposalExecuted s proposalId)
           (s.issuerUpdateProposals proposalId).newIssuer ∧
         evs = [Event.IssuerUpdated (s.issuerUpdateProposals proposalId).newIssuer true,
                Event.IssuerUpdateExecuted proposalId (s.issuerUpdateProposals proposalId).action
                  (s.issuerUpdateProposals proposalId).issuer
                  (s.issuerUpdateProposals proposalId).newIssuer]) ∨
        ((s.issuerUpdateProposals proposalId).action = IssuerUpdateAction.rotate ∧
         s.isAuthorizedIssuer (s.issuerUpdateProposals proposalId).issuer = true ∧
         (s.issuerUpdateProposals proposalId).newIssuer ≠ 0 ∧
         s.isAuthorizedIssuer (s.issuerUpdateProposals proposalId).newIssuer = false ∧
         s' = authorizeAndPush
           (deauthorizeAndRemove (markProposalExecuted s proposalId)
             (s.issuerUpdateProposals proposalId).issuer)
           (s.issuerUpdateProposals proposalId).newIssuer ∧
         evs = [Event.IssuerUpdated (s.issuerUpdateProposals proposalId).issuer false,
                Event.IssuerUpdated (s.issuerUpdateProposals proposalId).newIssuer true,
                Event.IssuerUpdateExecuted proposalId (s.issuerUpdateProposals proposalId).action
                  (s.issuerUpdateProposals proposalId).issuer
                  (s.issuerUpdateProposals proposalId).newIssuer]))) := by
  simp only [executeIssuerUpdate]
  (repeat' split) <;> simp_all <;> tauto

theorem issueCertificate_eq_ok (env : Env) (s : RegistryState)
    (certificateId docHash : Bytes32) (storageURI : String) (issuer : Address)
    (issuedAt : Nat) (salt : Bytes16) (sig : SigBytes)
    (s' : RegistryState) (evs : List Event) :
    issueCertificate env s certificateId docHash storageURI issuer issuedAt salt sig =
        .ok (s', evs) ↔
      (s.isAuthorizedIssuer issuer = true ∧
       (s.certificates certificateId).status = Status.none ∧
       storageURI.utf8ByteSize ≠ 0 ∧ issuedAt ≠ 0 ∧
       s.issuedByDocAndIssuer (docIssuerKey docHash issuer) = false ∧
       deriveCertificateId docHash salt issuer env.chainId issuedAt = certificateId ∧
       env.recoverIssueSigner
         { certificateId := certificateId, docHash := docHash, storageURI := storageURI,
           issuer := issuer, issuedAt := issuedAt, chainId := env.chainId, salt := salt }
         sig = Option.some issuer ∧
       s' = { s with
               certificates := setFun s.certificates certificateId
                 { docHash := docHash, storageURI := storageURI, issuer := issuer,
                   issuedAt := issuedAt, status := Status.active, revokeReason := "",
                   revokedAt := 0, issuerSignature := sig, salt := salt,
                   revokeSignature := [] }
               issuedByDocAndIssuer :=
                 setFun s.issuedByDocAndIssuer (docIssuerKey docHash issuer) true } ∧
       evs = [Event.CertificateIssued certificateId issuer docHash storageURI issuedAt salt]) := by
  simp only [issueCertificate]
  (repeat' split) <;> simp_all <;> tauto

theorem revokeCertificate_eq_ok (env : Env) (s : RegistryState) (sender : Address)
    (certificateId : Bytes32) (reason : String) (sig : SigBytes) (now : Nat)
    (s' : RegistryState) (evs : List Event) :
    revokeCertificate env s sender certificateId reason sig now = .ok (s', evs) ↔
      ((s.certificates certificateId).status = Status.active ∧
       (sender = s.owner ∨ sender = (s.certificates certificateId).issuer) ∧
       reason.utf8ByteSize ≠ 0 ∧ reason.utf8ByteSize ≤ 256 ∧ sig ≠ [] ∧
       env.recoverRevokeSigner
         { certificateId := certificateId, reason := reason,
           issuer := (s.certificates certificateId).issuer, chainId := env.chainId }
         sig = Option.some (s.certificates certificateId).issuer ∧
       s' = { s with
               certificates := setFun s.certificates certificateId
                 { s.certificates certificateId with
                   status := Status.revoked, revokeReason := reason,
                   revokedAt := now, revokeSignature := sig } } ∧
       evs = [Event.CertificateRevoked certificateId (s.certificates certificateId).issuer
                reason now]) := by
  simp only [revokeCertificate]
  (repeat' split) <;> simp_all <;> tauto

theorem transferOwnership_eq_ok (s : RegistryState) (sender newOwner : Address)
    (s' : RegistryState) (evs : List Event) :
    transferOwnership s sender newOwner = .ok (s', evs) ↔
      (sender = s.owner ∧ newOwner ≠ 0 ∧ s' = { s with owner := newOwner } ∧ evs = []) := by
  unfold transferOwnership
  (repeat' split) <;> simp_all <;> tauto

theorem renounceOwnership_eq_ok (s : RegistryState) (sender : Address)
    (s' : RegistryState) (evs : List Event) :
    renounceOwnership s sender = .ok (s', evs) ↔
      (sender = s.owner ∧ s' = { s with owner := 0 } ∧ evs = []) := by
  unfold renounceOwnership
  (repeat' split) <;> simp_all <;> tauto

/-! ## Per-transaction result descriptions

For every transaction kind: either the call reverted and the state is
unchanged, or it succeeded and the new state is described exactly. -/

theorem applyTx_setThreshold (env : Env) (s : RegistryState) (sender : Address) (th : Nat) :
    applyTx env s (Tx.setIssuerUpdateThreshold sender th) = s ∨
    (th ≠ 0 ∧ applyTx env s (Tx.setIssuerUpdateThreshold sender th) =
      { s with issuerUpdateThreshold := th }) := by
  cases hr : stepTx env s (Tx.setIssuerUpdateThreshold sender th) with
  | error e => left; simp [applyTx, hr]
  | ok p =>
    obtain ⟨s1, evs⟩ := p
    have hc := (setIssuerUpdateThreshold_eq_ok s sender th s1 evs).mp hr
    obtain ⟨-, hth, rfl, -⟩ := hc
    exact Or.inr ⟨hth, by simp [applyTx, hr]⟩

theorem applyTx_addIssuer (env : Env) (s : RegistryState) (sender issuer : Address) :
    applyTx env s (Tx.addIssuer sender issuer) = s ∨
    (s.isAuthorizedIssuer issuer = false ∧
     applyTx env s (Tx.addIssuer sender issuer) = authorizeAndPush s issuer) := by
  cases hr : stepTx env s (Tx.addIssuer sender issuer) with
  | error e => left; simp [applyTx, hr]
  | ok p =>
    obtain ⟨s1, evs⟩ := p
    have hc := (addIssuer_eq_ok s sender issuer s1 evs).mp hr
    obtain ⟨-, -, hauth, rfl, -⟩ := hc
    exact Or.inr ⟨hauth, by simp [applyTx, hr]⟩

theorem applyTx_removeIssuer (env : Env) (s : RegistryState) (sender issuer : Address) :
    applyTx env s (Tx.removeIssuer sender issuer) = s ∨
    (s.isAuthorizedIssuer issuer = true ∧
     applyTx env s (Tx.removeIssuer sender issuer) = deauthorizeAndRemove s issuer) := by
  cases hr : stepTx env s (Tx.removeIssuer sender issuer) with
  | error e => left; simp [applyTx, hr]
  | ok p =>
    obtain ⟨s1, evs⟩ := p
    have hc := (removeIssuer_eq_ok s sender issuer s1 evs).mp hr
    obtain ⟨-, hauth, rfl, -⟩ := hc
    exact Or.inr ⟨hauth, by simp [applyTx, hr]⟩

theorem applyTx_proposeAdd (env : Env) (s : RegistryState) (sender newIssuer : Address)
    (now : Nat) :
    applyTx env s (Tx.proposeAddIssuer sender newIssuer now) = s ∨
    applyTx env s (Tx.proposeAddIssuer sender newIssuer now) =
      { s with
         nextIssuerUpdateProposalId := s.nextIssuerUpdateProposalId + 1
         issuerUpdateProposals := setFun s.issuerUpdateProposals s.nextIssuerUpdateProposalId
           { action := IssuerUpdateAction.add, issuer := 0, newIssuer := newIssuer,
             approvals := 0, executed := false, createdAt := now } } := by
  cases hr : stepTx env s (Tx.proposeAddIssuer sender newIssuer now) with
  | error e => left; simp [applyTx, hr]
  | ok p =>
    obtain ⟨s1, evs⟩ := p
    have hc := (proposeAddIssuer_eq_ok s sender newIssuer now s1 evs).mp hr
    obtain ⟨-, -, -, rfl, -⟩ := hc
    exact Or.inr (by simp [applyTx, hr])

theorem applyTx_proposeRotate (env : Env) (s : RegistryState)
    (sender issuer newIssuer : Address) (now : Nat) :
    applyTx env s (Tx.proposeRotateIssuer sender issuer newIssuer now) = s ∨
    applyTx env s (Tx.proposeRotateIssuer sender issuer newIssuer now) =
      { s with
         nextIssuerUpdateProposalId := s.nextIssuerUpdateProposalId + 1
         issuerUpdateProposals := setFun s.issuerUpdateProposals s.nextIssuerUpdateProposalId
           { action := IssuerUpdateAction.rotate, issuer := issuer, newIssuer := newIssuer,
             approvals := 0, executed := false, createdAt := now } } := by
  cases hr : stepTx env s (Tx.proposeRotateIssuer sender issuer newIssuer now) with
  | error e => left; simp [applyTx, hr]
  | ok p =>
    obtain ⟨s1, evs⟩ := p
    have hc := (proposeRotateIssuer_eq_ok s sender issuer newIssuer now s1 evs).mp hr
    obtain ⟨-, -, -, -, -, rfl, -⟩ := hc
    exact Or.inr (by simp [applyTx, hr])

theorem applyTx_approve (env : Env) (s : RegistryState) (sender : Address) (pid : Nat) :
    applyTx env s (Tx.approveIssuerUpdate sender pid) = s ∨
    applyTx env s (Tx.approveIssuerUpdate sender pid) =
      { s with
         issuerUpdateApprovedBy := setFun2 s.issuerUpdateApprovedBy pid sender true
         issuerUpdateProposals := setFun s.issuerUpdateProposals pid
           { s.issuerUpdateProposals pid with
             approvals := (s.issuerUpdateProposals pid).approvals + 1 } } := by
  cases hr : stepTx env s (Tx.approveIssuerUpdate sender pid) with
  | error e => left; simp [applyTx, hr]
  | ok p =>
    obtain ⟨s1, evs⟩ := p
    have hc := (approveIssuerUpdate_eq_ok s sender pid s1 evs).mp hr
    obtain ⟨-, -, -, -, rfl, -⟩ := hc
    exact Or.inr (by simp [applyTx, hr])

theorem applyTx_execute (env : Env) (s : RegistryState) (sender : Address) (pid : Nat) :
    applyTx env s (Tx.executeIssuerUpdate sender pid) = s ∨
    (s.isAuthorizedIssuer (s.issuerUpdateProposals pid).newIssuer = false ∧
     applyTx env s (Tx.executeIssuerUpdate sender pid) =
       authorizeAndPush (markProposalExecuted s pid) (s.issuerUpdateProposals pid).newIssuer) ∨
    (s.isAuthorizedIssuer (s.issuerUpdateProposals pid).issuer = true ∧
     s.isAuthorizedIssuer (s.issuerUpdateProposals pid).newIssuer = false ∧
     applyTx env s (Tx.executeIssuerUpdate sender pid) =
       authorizeAndPush
         (deauthorizeAndRemove (markProposalExecuted s pid) (s.issuerUpdateProposals pid).issuer)
         (s.issuerUpdateProposals pid).newIssuer) := by
  cases hr : stepTx env s (Tx.executeIssuerUpdate sender pid) with
  | error e => left; simp [applyTx, hr]
  | ok p =>
    obtain ⟨s1, evs⟩ := p
    have hc := (executeIssuerUpdate_eq_ok s sender pid s1 evs).mp hr
    obtain ⟨-, -, -, -, hact⟩ := hc
    rcases hact with ⟨-, -, hauth, rfl, -⟩ | ⟨-, hold, -, hauth, rfl, -⟩
    · exact Or.inr (Or.inl ⟨hauth, by simp [applyTx, hr]⟩)
    · exact Or.inr (Or.inr ⟨hold, hauth, by simp [applyTx, hr]⟩)

theorem applyTx_issue (env : Env) (s : RegistryState) (certificateId docHash : Bytes32)
    (storageURI : String) (issuer : Address) (issuedAt : Nat) (salt : Bytes16)
    (sig : SigBytes) :
    applyTx env s (Tx.issueCertificate certificateId docHash storageURI issuer issuedAt salt sig)
      = s ∨
    ((s.certificates certificateId).status = Status.none ∧
     s.issuedByDocAndIssuer (docIssuerKey docHash issuer) = false ∧
     applyTx env s (Tx.issueCertificate certificateId docHash storageURI issuer issuedAt salt sig)
       = { s with
            certificates := setFun s.certificates certificateId
              { docHash := docHash, storageURI := storageURI, issuer := issuer,
                issuedAt := issuedAt, status := Status.active, revokeReason := "",
                revokedAt := 0, issuerSignature := sig, salt := salt,
                revokeSignature := [] }
            issuedByDocAndIssuer :=
              setFun s.issuedByDocAndIssuer (docIssuerKey docHash issuer) true }) := by
  cases hr : stepTx env s
      (Tx.issueCertificate certificateId docHash storageURI issuer issuedAt salt sig) with
  | error e => left; simp [applyTx, hr]
  | ok p =>
    obtain ⟨s1, evs⟩ := p
    have hc := (issueCertificate_eq_ok env s certificateId docHash storageURI issuer
      issuedAt salt sig s1 evs).mp hr
    obtain ⟨-, hnone, -, -, hdup, -, -, rfl, -⟩ := hc
    exact Or.inr ⟨hnone, hdup, by simp [applyTx, hr]⟩

theorem applyTx_revoke (env : Env) (s : RegistryState) (sender : Address)
    (certificateId : Bytes32) (reason : String) (sig : SigBytes) (now : Nat) :
    applyTx env s (Tx.revokeCertificate sender certificateId reason sig now) = s ∨
    ((s.certificates certificateId).status = Status.active ∧
     applyTx env s (Tx.revokeCertificate sender certificateId reason sig now) =
       { s with
          certificates := setFun s.certificates certificateId
            { s.certificates certificateId with
              status := Status.revoked, revokeReason := reason,
              revokedAt := now, revokeSignature := sig } }) := by
  cases hr : stepTx env s (Tx.revokeCertificate sender certificateId reason sig now) with
  | error e => left; simp [applyTx, hr]
  | ok p =>
    obtain ⟨s1, evs⟩ := p
    have hc := (revokeCertificate_eq_ok env s sender certificateId reason sig now s1 evs).mp hr
    obtain ⟨hact, -, -, -, -, -, rfl, -⟩ := hc
    exact Or.inr ⟨hact, by simp [applyTx, hr]⟩

theorem applyTx_transferOwnership (env : Env) (s : RegistryState) (sender newOwner : Address) :
    applyTx env s (Tx.transferOwnership sender newOwner) = s ∨
    applyTx env s (Tx.transferOwnership sender newOwner) = { s with owner := newOwner } := by
  cases hr : stepTx env s (Tx.transferOwnership sender newOwner) with
  | error e => left; simp [applyTx, hr]
  | ok p =>
    obtain ⟨s1, evs⟩ := p
    have hc := (transferOwnership_eq_ok s sender newOwner s1 evs).mp hr
    obtain ⟨-, -, rfl, -⟩ := hc
    exact Or.inr (by simp [applyTx, hr])

theorem applyTx_renounceOwnership (env : Env) (s : RegistryState) (sender : Address) :
    applyTx env s (Tx.renounceOwnership sender) = s ∨
    applyTx env s (Tx.renounceOwnership sender) = { s with owner := 0 } := by
  cases hr : stepTx env s (Tx.renounceOwnership sender) with
  | error e => left; simp [applyTx, hr]
  | ok p =>
    obtain ⟨s1, evs⟩ := p
    have hc := (renounceOwnership_eq_ok s sender s1 evs).mp hr
    obtain ⟨-, rfl, -⟩ := hc
    exact Or.inr (by simp [applyTx, hr])

/-! ## Pointwise-update lemmas -/

theorem setFun_apply {α : Type} (f : Nat → α) (k : Nat) (v : α) (x : Nat) :
    setFun f k v x = if x = k then v else f x := rfl

theorem setFun2_apply {α : Type} (f : Nat → Nat → α) (k1 k2 : Nat) (v : α) (x y : Nat) :
    setFun2 f k1 k2 v x y = if x = k1 ∧ y = k2 then v else f x y := rfl

theorem isOk_eq_true_iff {ε α : Type} (r : Except ε α) : isOk r = true ↔ ∃ a, r = .ok a := by
  cases r <;> simp [isOk]

/-! ## Master preservation principle

A state predicate that survives each primitive mutation of the contract
(from an arbitrary state) survives every transaction, because every
successful transaction is a composition of these mutations and every
reverted transaction leaves the state unchanged. -/

theorem applyTx_preserves (env : Env) (P : RegistryState → Prop)
    (hthr : ∀ u th, P u → th ≠ 0 → P { u with issuerUpdateThreshold := th })
    (hpush : ∀ u a, P u → u.isAuthorizedIssuer a = false → P (authorizeAndPush u a))
    (hrem : ∀ u a, P u → u.isAuthorizedIssuer a = true → P (deauthorizeAndRemove u a))
    (hprop : ∀ u p, P u →
      P { u with
           nextIssuerUpdateProposalId := u.nextIssuerUpdateProposalId + 1
           issuerUpdateProposals :=
             setFun u.issuerUpdateProposals u.nextIssuerUpdateProposalId p })
    (happr : ∀ u pid a, P u →
      P { u with
           issuerUpdateApprovedBy := setFun2 u.issuerUpdateApprovedBy pid a true
           issuerUpdateProposals := setFun u.issuerUpdateProposals pid
             { u.issuerUpdateProposals pid with
               approvals := (u.issuerUpdateProposals pid).approvals + 1 } })
    (hmark : ∀ u pid, P u → P (markProposalExecuted u pid))
    (hissue : ∀ u cid dh uri iss ia salt sig, P u →
      (u.certificates cid).status = Status.none →
      u.issuedByDocAndIssuer (docIssuerKey dh iss) = false →
      P { u with
           certificates := setFun u.certificates cid
             { docHash := dh, storageURI := uri, issuer := iss, issuedAt := ia,
               status := Status.active, revokeReason := "", revokedAt := 0,
               issuerSignature := sig, salt := salt, revokeSignature := [] }
           issuedByDocAndIssuer := setFun u.issuedByDocAndIssuer (docIssuerKey dh iss) true })
    (hrevoke : ∀ u cid reason sig now, P u →
      (u.certificates cid).status = Status.active →
      P { u with
           certificates := setFun u.certificates cid
             { u.certificates cid with
               status := Status.revoked, revokeReason := reason,
               revokedAt := now, revokeSignature := sig } })
    (howner : ∀ u o, P u → P { u with owner := o })
    (s : RegistryState) (t : Tx) (h : P s) : P (applyTx env s t) := by
  cases t with
  | setIssuerUpdateThreshold sender th =>
      rcases applyTx_setThreshold env s sender th with heq | ⟨hth, heq⟩
      · rwa [heq]
      · rw [heq]; exact hthr s th h hth
  | addIssuer sender issuer =>
      rcases applyTx_addIssuer env s sender issuer with heq | ⟨hauth, heq⟩
      · rwa [heq]
      · rw [heq]; exact hpush s issuer h hauth
  | removeIssuer sender issuer =>
      rcases applyTx_removeIssuer env s sender issuer with heq | ⟨hauth, heq⟩
      · rwa [heq]
      · rw [heq]; exact hrem s issuer h hauth
  | proposeAddIssuer sender newIssuer now =>
      rcases applyTx_proposeAdd env s sender newIssuer now with heq | heq
      · rwa [heq]
      · rw [heq]; exact hprop s _ h
  | proposeRotateIssuer sender issuer newIssuer now =>
      rcases applyTx_proposeRotate env s sender issuer newIssuer now with heq | heq
      · rwa [heq]
      · rw [heq]; exact hprop s _ h
  | approveIssuerUpdate sender pid =>
      rcases applyTx_approve env s sender pid with heq | heq
      · rwa [heq]
      · rw [heq]; exact happr s pid sender h
  | executeIssuerUpdate sender pid =>
      rcases applyTx_execute env s sender pid with heq | ⟨hauth, heq⟩ | ⟨hold, hauth, heq⟩
      · rwa [heq]
      · rw [heq]
        exact hpush (markProposalExecuted s pid) _ (hmark s pid h)
          (by simpa using hauth)
      · rw [heq]
        refine hpush (deauthorizeAndRemove (markProposalExecuted s pid)
          (s.issuerUpdateProposals pid).issuer) _
          (hrem (markProposalExecuted s pid) _ (hmark s pid h) (by simpa using hold)) ?_
        simp only [deauthorizeAndRemove_isAuthorizedIssuer,
          markProposalExecuted_isAuthorizedIssuer, setFun_apply]
        split
        · rfl
        · exact hauth
  | issueCertificate cid dh uri iss ia salt sig =>
      rcases applyTx_issue env s cid dh uri iss ia salt sig with heq | ⟨hnone, hdup, heq⟩
      · rwa [heq]
      · rw [heq]; exact hissue s cid dh uri iss ia salt sig h hnone hdup
  | revokeCertificate sender cid reason sig now =>
      rcases applyTx_revoke env s sender cid reason sig now with heq | ⟨hact, heq⟩
      · rwa [heq]
      · rw [heq]; exact hrevoke s cid reason sig now h hact
  | transferOwnership sender newOwner =>
      rcases applyTx_transferOwnership env s sender newOwner with heq | heq
      · rwa [heq]
      · rw [heq]; exact howner s newOwner h
  | renounceOwnership sender =>
      rcases applyTx_renounceOwnership env s sender with heq | heq
      · rwa [heq]
      · rw [heq]; exact howner s 0 h

/-! ## Invariant transfer helpers -/

theorem CertDefaultInv_congr {s s' : RegistryState}
    (hc : s'.certificates = s.certificates) : CertDefaultInv s → CertDefaultInv s' := by
  intro h; intro id; rw [hc]; exact h id

theorem CertGuardInv_congr {s s' : RegistryState}
    (hc : s'.certificates = s.certificates)
    (hg : s'.issuedByDocAndIssuer = s.issuedByDocAndIssuer) :
    CertGuardInv s → CertGuardInv s' := by
  intro h; intro id; rw [hc, hg]; exact h id

theorem CertUniqueInv_congr {s s' : RegistryState}
    (hc : s'.certificates = s.certificates) : CertUniqueInv s → CertUniqueInv s' := by
  intro h; intro id1 id2; rw [hc]; exact h id1 id2

theorem IssuerListInv_congr {s s' : RegistryState}
    (hauth : s'.isAuthorizedIssuer = s.isAuthorizedIssuer)
    (hlist : s'.issuerList = s.issuerList)
    (hidx : s'.issuerIndexPlusOne = s.issuerIndexPlusOne) :
    IssuerListInv s → IssuerListInv s' := by
  intro h
  unfold IssuerListInv at h ⊢
  rw [hauth, hidx]
  rcases h with ⟨h1, h2, h3⟩
  refine ⟨by rw [hlist]; exact h1, fun a => by rw [hlist]; exact h2 a, ?_⟩
  intro i
  have hlen : s'.issuerList.length = s.issuerList.length := by rw [hlist]
  have : s'.issuerList.get i = s.issuerList.get (Fin.cast hlen i) := by
    simp [List.get_eq_getElem, hlist]
  rw [this]
  simpa using h3 (Fin.cast hlen i)

/-! ## Single-step invariant preservation -/

theorem threshold_ge_one_step (env : Env) (s : RegistryState) (t : Tx)
    (h : 1 ≤ s.issuerUpdateThreshold) : 1 ≤ (applyTx env s t).issuerUpdateThreshold :=
  applyTx_preserves env (fun u => 1 ≤ u.issuerUpdateThreshold)
    (fun u th _ hth => by simpa using Nat.one_le_iff_ne_zero.mpr hth)
    (fun u a hu _ => by simpa using hu)
    (fun u a hu _ => by simpa using hu)
    (fun u p hu => by simpa using hu)
    (fun u pid a hu => by simpa using hu)
    (fun u pid hu => by simpa using hu)
    (fun u cid dh uri iss ia salt sig hu _ _ => by simpa using hu)
    (fun u cid reason sig now hu _ => by simpa using hu)
    (fun u o hu => by simpa using hu)
    s t h

theorem guard_true_step (env : Env) (s : RegistryState) (t : Tx) (k : Bytes32)
    (h : s.issuedByDocAndIssuer k = true) : (applyTx env s t).issuedByDocAndIssuer k = true :=
  applyTx_preserves env (fun u => u.issuedByDocAndIssuer k = true)
    (fun u th hu _ => by simpa using hu)
    (fun u a hu _ => by simpa using hu)
    (fun u a hu _ => by simpa using hu)
    (fun u p hu => by simpa using hu)
    (fun u pid a hu => by simpa using hu)
    (fun u pid hu => by simpa using hu)
    (fun u cid dh uri iss ia salt sig hu _ _ => by
      show setFun u.issuedByDocAndIssuer (docIssuerKey dh iss) true k = true
      rw [setFun_apply]; split
      · rfl
      · exact hu)
    (fun u cid reason sig now hu _ => by simpa using hu)
    (fun u o hu => by simpa using hu)
    s t h

theorem certDefault_step (env : Env) (s : RegistryState) (t : Tx)
    (h : CertDefaultInv s) : CertDefaultInv (applyTx env s t) :=
  applyTx_preserves env CertDefaultInv
    (fun u th hu _ => CertDefaultInv_congr rfl hu)
    (fun u a hu _ => CertDefaultInv_congr (authorizeAndPush_certificates u a) hu)
    (fun u a hu _ => CertDefaultInv_congr (deauthorizeAndRemove_certificates u a) hu)
    (fun u p hu => CertDefaultInv_congr rfl hu)
    (fun u pid a hu => CertDefaultInv_congr rfl hu)
    (fun u pid hu => CertDefaultInv_congr rfl hu)
    (fun u cid dh uri iss ia salt sig hu _ _ => by
      intro id hid
      simp only [setFun_apply] at hid ⊢
      split at hid
      · exact absurd hid (by simp)
      · rename_i hne
        rw [if_neg hne]
        exact hu id hid)
    (fun u cid reason sig now hu _ => by
      intro id hid
      simp only [setFun_apply] at hid ⊢
      split at hid
      · exact absurd hid (by simp)
      · rename_i hne
        rw [if_neg hne]
        exact hu id hid)
    (fun u o hu => CertDefaultInv_congr rfl hu)
    s t h

theorem statusRank_step (env : Env) (s : RegistryState) (t : Tx) (id : Bytes32) :
    statusRank (s.certificates id).status ≤
      statusRank ((applyTx env s t).certificates id).status :=
  applyTx_preserves env
    (fun u => statusRank (s.certificates id).status ≤ statusRank (u.certificates id).status)
    (fun u th hu _ => by simpa using hu)
    (fun u a hu _ => by simpa using hu)
    (fun u a hu _ => by simpa using hu)
    (fun u p hu => by simpa using hu)
    (fun u pid a hu => by simpa using hu)
    (fun u pid hu => by simpa using hu)
    (fun u cid dh uri iss ia salt sig hu hnone _ => by
      show statusRank (s.certificates id).status ≤
        statusRank ((setFun u.certificates cid
          { docHash := dh, storageURI := uri, issuer := iss, issuedAt := ia,
            status := Status.active, revokeReason := "", revokedAt := 0,
            issuerSignature := sig, salt := salt, revokeSignature := [] } id).status)
      rw [setFun_apply]
      split
      · rename_i he
        rw [he] at hu ⊢
        rw [hnone] at hu
        simp [statusRank] at hu ⊢
        omega
      · exact hu)
    (fun u cid reason sig now hu hact => by
      show statusRank (s.certificates id).status ≤
        statusRank ((setFun u.certificates cid
          { u.certificates cid with
            status := Status.revoked, revokeReason := reason,
            revokedAt := now, revokeSignature := sig } id).status)
      rw [setFun_apply]
      split
      · rename_i he
        rw [he] at hu ⊢
        rw [hact] at hu
        simp [statusRank] at hu ⊢
        omega
      · exact hu)
    (fun u o hu => by simpa using hu)
    s t (le_refl _)

theorem certPair_step (env : Env) (s : RegistryState) (t : Tx)
    (h : CertGuardInv s ∧ CertUniqueInv s) :
    CertGuardInv (applyTx env s t) ∧ CertUniqueInv (applyTx env s t) :=
  applyTx_preserves env (fun u => CertGuardInv u ∧ CertUniqueInv u)
    (fun u th hu _ => ⟨CertGuardInv_congr rfl rfl hu.1, CertUniqueInv_congr rfl hu.2⟩)
    (fun u a hu _ => ⟨CertGuardInv_congr (authorizeAndPush_certificates u a)
        (authorizeAndPush_issuedByDocAndIssuer u a) hu.1,
      CertUniqueInv_congr (authorizeAndPush_certificates u a) hu.2⟩)
    (fun u a hu _ => ⟨CertGuardInv_congr (deauthorizeAndRemove_certificates u a)
        (deauthorizeAndRemove_issuedByDocAndIssuer u a) hu.1,
      CertUniqueInv_congr (deauthorizeAndRemove_certificates u a) hu.2⟩)
    (fun u p hu => ⟨CertGuardInv_congr rfl rfl hu.1, CertUniqueInv_congr rfl hu.2⟩)
    (fun u pid a hu => ⟨CertGuardInv_congr rfl rfl hu.1, CertUniqueInv_congr rfl hu.2⟩)
    (fun u pid hu => ⟨CertGuardInv_congr rfl rfl hu.1, CertUniqueInv_congr rfl hu.2⟩)
    (fun u cid dh uri iss ia salt sig hu hnone hdup => by
      obtain ⟨hg, hq⟩ := hu
      constructor
      · intro id hid
        by_cases hidc : id = cid
        · subst hidc
          simp [setFun_apply]
        · simp only [setFun_apply, if_neg hidc] at hid ⊢
          split
          · rfl
          · exact hg id hid
      · intro id1 id2 h1 h2 hdh hiss
        by_cases e1 : id1 = cid <;> by_cases e2 : id2 = cid
        · rw [e1, e2]
        · exfalso
          subst e1
          simp [setFun_apply, e2] at h2 hdh hiss
          have hg2 := hg id2 h2
          rw [← hdh, ← hiss] at hg2
          simp [hg2] at hdup
        · exfalso
          subst e2
          simp [setFun_apply, e1] at h1 hdh hiss
          have hg1 := hg id1 h1
          rw [hdh, hiss] at hg1
          simp [hg1] at hdup
        · simp only [setFun_apply, if_neg e1, if_neg e2] at h1 h2 hdh hiss
          exact hq id1 id2 h1 h2 hdh hiss)
    (fun u cid reason sig now hu hact => by
      obtain ⟨hg, hq⟩ := hu
      constructor
      · intro id hid
        by_cases hidc : id = cid
        · subst hidc
          simpa [setFun_apply] using hg id (by simp [hact])
        · simp only [setFun_apply, if_neg hidc] at hid ⊢
          exact hg id hid
      · intro id1 id2 h1 h2 hdh hiss
        by_cases e1 : id1 = cid <;> by_cases e2 : id2 = cid
        · rw [e1, e2]
        · subst e1
          simp [setFun_apply, e2] at h2 hdh hiss
          exact hq id1 id2 (by simp [hact]) h2 hdh hiss
        · subst e2
          simp [setFun_apply, e1] at h1 hdh hiss
          exact hq id1 id2 h1 (by simp [hact]) hdh hiss
        · simp only [setFun_apply, if_neg e1, if_neg e2] at h1 h2 hdh hiss
          exact hq id1 id2 h1 h2 hdh hiss)
    (fun u o hu => ⟨CertGuardInv_congr rfl rfl hu.1, CertUniqueInv_congr rfl hu.2⟩)
    s t h

/-! ## Allow-list and enumeration-list consistency -/

theorem authorizeAndPush_issuerIndexPlusOne (s : RegistryState) (a : Address) :
    (authorizeAndPush s a).issuerIndexPlusOne =
      setFun s.issuerIndexPlusOne a (s.issuerList.length + 1) := rfl

theorem authorizeAndPush_inv (s : RegistryState) (a : Address)
    (hInv : IssuerListInv s) (ha : s.isAuthorizedIssuer a = false) :
    IssuerListInv (authorizeAndPush s a) := by
  obtain ⟨hnd, hmem, hidx⟩ := hInv
  have hanotmem : a ∉ s.issuerList := by
    intro hm
    rw [← hmem a, ha] at hm
    cases hm
  refine ⟨?_, ?_, ?_⟩
  · rw [authorizeAndPush_issuerList]
    refine List.nodup_append.mpr ⟨hnd, List.nodup_singleton a, ?_⟩
    intro x hx hxa
    rw [List.mem_singleton] at hxa
    subst hxa
    exact hanotmem hx
  · intro b
    rw [authorizeAndPush_issuerList, authorizeAndPush_isAuthorizedIssuer, setFun_apply]
    by_cases hba : b = a
    · subst hba
      simp
    · rw [if_neg hba, hmem b]
      simp [hba]
  · intro i
    have hi : i.val < (s.issuerList ++ [a]).length := i.isLt
    show setFun s.issuerIndexPlusOne a (s.issuerList.length + 1)
        ((s.issuerList ++ [a]).get ⟨i.val, hi⟩) = i.val + 1
    simp only [List.get_eq_getElem]
    by_cases hlt : i.val < s.issuerList.length
    · have hget : (s.issuerList ++ [a])[i.val] = s.issuerList[i.val] :=
        List.getElem_append_left hlt
      rw [hget, setFun_apply, if_neg ?hna]
      case hna =>
        intro hga
        exact hanotmem (hga ▸ List.getElem_mem hlt)
      have := hidx ⟨i.val, hlt⟩
      simpa using this
    · have hieq : i.val = s.issuerList.length := by
        rw [List.length_append] at hi
        simp at hi
        omega
      have hget : (s.issuerList ++ [a])[i.val] = a :=
        List.getElem_concat_length s.issuerList a i.val hieq i.isLt
      rw [hget, setFun_apply, if_pos rfl, hieq]

theorem deauthorizeAndRemove_eq (s : RegistryState) (a : Address) (i : Nat)
    (hidxa : s.issuerIndexPlusOne a = i + 1) :
    (i = s.issuerList.length - 1 →
      deauthorizeAndRemove s a = { s with
        isAuthorizedIssuer := setFun s.isAuthorizedIssuer a false
        issuerList := s.issuerList.dropLast
        issuerIndexPlusOne := setFun s.issuerIndexPlusOne a 0 }) ∧
    (i ≠ s.issuerList.length - 1 →
      deauthorizeAndRemove s a = { s with
        isAuthorizedIssuer := setFun s.isAuthorizedIssuer a false
        issuerList :=
          (s.issuerList.set i (s.issuerList.getD (s.issuerList.length - 1) 0)).dropLast
        issuerIndexPlusOne := setFun (setFun s.issuerIndexPlusOne
          (s.issuerList.getD (s.issuerList.length - 1) 0) (i + 1)) a 0 }) := by
  constructor <;> intro hcase <;>
    simp [deauthorizeAndRemove, removeFromIssuerList, hidxa, hcase]

theorem deauthorizeAndRemove_inv (s : RegistryState) (a : Address)
    (hInv : IssuerListInv s) (ha : s.isAuthorizedIssuer a = true) :
    IssuerListInv (deauthorizeAndRemove s a) := by
  obtain ⟨hnd, hmem, hidx⟩ := hInv
  have hamem : a ∈ s.issuerList := (hmem a).mp ha
  obtain ⟨i, hia⟩ := List.mem_iff_get.mp hamem
  have hidxa : s.issuerIndexPlusOne a = i.val + 1 := by rw [← hia]; exact hidx i
  have hinj : Function.Injective s.issuerList.get := List.nodup_iff_injective_get.mp hnd
  have hlen0 : 0 < s.issuerList.length := Nat.lt_of_le_of_lt (Nat.zero_le _) i.isLt
  by_cases hcase : i.val = s.issuerList.length - 1
  · -- the removed issuer sits in the last slot: plain pop
    rw [(deauthorizeAndRemove_eq s a i.val hidxa).1 hcase]
    have hne : s.issuerList ≠ [] := List.length_pos.mp hlen0
    have hlast : s.issuerList.getLast hne = a := by
      rw [List.getLast_eq_getElem]
      have hfin : (⟨s.issuerList.length - 1, by omega⟩ : Fin s.issuerList.length) = i := by
        apply Fin.ext
        simp [hcase]
      calc s.issuerList[s.issuerList.length - 1] =
          s.issuerList.get ⟨s.issuerList.length - 1, by omega⟩ := by
            simp [List.get_eq_getElem]
        _ = s.issuerList.get i := by rw [hfin]
        _ = a := hia
    have hAeq : s.issuerList.dropLast ++ [a] = s.issuerList := by
      rw [← hlast]
      exact List.dropLast_append_getLast hne
    have hnd2 : (s.issuerList.dropLast ++ [a]).Nodup := by rw [hAeq]; exact hnd
    have hsplit := List.nodup_append.mp hnd2
    have hnotd : a ∉ s.issuerList.dropLast := fun hmem2 =>
      hsplit.2.2 hmem2 (List.mem_singleton.mpr rfl)
    refine ⟨hsplit.1, ?_, ?_⟩
    · intro b
      show setFun s.isAuthorizedIssuer a false b = true ↔ b ∈ s.issuerList.dropLast
      rw [setFun_apply]
      by_cases hba : b = a
      · subst hba
        simp [hnotd]
      · rw [if_neg hba, hmem b]
        rw [← hAeq, List.mem_append]
        simp [hba]
    · intro j
      have hj : j.val < s.issuerList.dropLast.length := j.isLt
      have hjl : j.val < s.issuerList.length := by
        have h3 := List.length_dropLast s.issuerList
        omega
      show setFun s.issuerIndexPlusOne a 0 (s.issuerList.dropLast.get j) = j.val + 1
      have hget : s.issuerList.dropLast.get j = s.issuerList.get ⟨j.val, hjl⟩ := by
        simp [List.get_eq_getElem, List.getElem_dropLast]
      rw [hget, setFun_apply, if_neg ?hne2]
      case hne2 =>
        intro hbeq
        have hfin := hinj (hbeq.trans hia.symm)
        have hval : j.val = i.val := congrArg Fin.val hfin
        have h3 := List.length_dropLast s.issuerList
        omega
      exact hidx ⟨j.val, hjl⟩
  · -- swap-with-last then pop
    rw [(deauthorizeAndRemove_eq s a i.val hidxa).2 hcase]
    have hlt : i.val < s.issuerList.length - 1 := by
      have := i.isLt
      omega
    have hlastget : s.issuerList.getD (s.issuerList.length - 1) 0 =
        s.issuerList.get ⟨s.issuerList.length - 1, by omega⟩ := by
      rw [List.getD_eq_getElem s.issuerList 0
        (show s.issuerList.length - 1 < s.issuerList.length by omega)]
      simp [List.get_eq_getElem]
    have hlast_ne_a : s.issuerList.getD (s.issuerList.length - 1) 0 ≠ a := by
      rw [hlastget]
      intro h
      have hfin := hinj (h.trans hia.symm)
      have := congrArg Fin.val hfin
      simp at this
      omega
    have hl'len : ((s.issuerList.set i.val
        (s.issuerList.getD (s.issuerList.length - 1) 0)).dropLast).length =
        s.issuerList.length - 1 := by
      rw [List.length_dropLast, List.length_set]
    have hjlt : ∀ j : Fin ((s.issuerList.set i.val
        (s.issuerList.getD (s.issuerList.length - 1) 0)).dropLast).length,
        j.val < s.issuerList.length - 1 := fun j => by
      have h2 := j.isLt
      have h3 := hl'len
      omega
    have hgetv1 : ∀ j : Fin ((s.issuerList.set i.val
        (s.issuerList.getD (s.issuerList.length - 1) 0)).dropLast).length,
        i.val = j.val →
        (s.issuerList.set i.val
          (s.issuerList.getD (s.issuerList.length - 1) 0)).dropLast.get j =
          s.issuerList.get ⟨s.issuerList.length - 1, by omega⟩ := by
      intro j hij
      rw [← hlastget]
      simp [List.get_eq_getElem, List.getElem_dropLast, List.getElem_set, hij]
    have hgetv2 : ∀ j : Fin ((s.issuerList.set i.val
        (s.issuerList.getD (s.issuerList.length - 1) 0)).dropLast).length,
        i.val ≠ j.val →
        (s.issuerList.set i.val
          (s.issuerList.getD (s.issuerList.length - 1) 0)).dropLast.get j =
          s.issuerList.get ⟨j.val, by have := hjlt j; omega⟩ := by
      intro j hij
      simp [List.get_eq_getElem, List.getElem_dropLast, List.getElem_set, hij]
    refine ⟨?_, ?_, ?_⟩
    · show ((s.issuerList.set i.val
        (s.issuerList.getD (s.issuerList.length - 1) 0)).dropLast).Nodup
      refine List.nodup_iff_injective_get.mpr ?_
      intro j1 j2 heq
      have h1 := hjlt j1
      have h2 := hjlt j2
      by_cases e1 : i.val = j1.val <;> by_cases e2 : i.val = j2.val
      · apply Fin.ext
        omega
      · exfalso
        rw [hgetv1 j1 e1, hgetv2 j2 e2] at heq
        have := congrArg Fin.val (hinj heq)
        simp at this
        omega
      · exfalso
        rw [hgetv2 j1 e1, hgetv1 j2 e2] at heq
        have := congrArg Fin.val (hinj heq)
        simp at this
        omega
      · rw [hgetv2 j1 e1, hgetv2 j2 e2] at heq
        have := congrArg Fin.val (hinj heq)
        simp at this
        exact Fin.ext this
    · intro b
      show setFun s.isAuthorizedIssuer a false b = true ↔
        b ∈ (s.issuerList.set i.val
          (s.issuerList.getD (s.issuerList.length - 1) 0)).dropLast
      rw [setFun_apply]
      by_cases hba : b = a
      · subst hba
        simp only [if_pos rfl]
        constructor
        · intro h
          cases h
        · intro hmem2
          exfalso
          obtain ⟨j, hj⟩ := List.mem_iff_get.mp hmem2
          by_cases hij : i.val = j.val
          · rw [hgetv1 j hij] at hj
            have := congrArg Fin.val (hinj (hj.trans hia.symm))
            simp at this
            omega
          · rw [hgetv2 j hij] at hj
            have hfin := hinj (hj.trans hia.symm)
            exact hij (congrArg Fin.val hfin).symm
      · rw [if_neg hba, hmem b]
        constructor
        · intro hbl
          obtain ⟨k, hk⟩ := List.mem_iff_get.mp hbl
          by_cases hkl : k.val = s.issuerList.length - 1
          · have hblast : b = s.issuerList.get ⟨s.issuerList.length - 1, by omega⟩ := by
              rw [← hk]
              congr 1
              apply Fin.ext
              simp [hkl]
            refine List.mem_iff_get.mpr ⟨⟨i.val, by rw [hl'len]; omega⟩, ?_⟩
            rw [hgetv1 ⟨i.val, by rw [hl'len]; omega⟩ rfl]
            exact hblast.symm
          · have hki : k.val ≠ i.val := by
              intro he
              apply hba
              rw [← hk, ← hia]
              congr 1
              apply Fin.ext
              exact he
            refine List.mem_iff_get.mpr
              ⟨⟨k.val, by rw [hl'len]; have := k.isLt; omega⟩, ?_⟩
            rw [hgetv2 ⟨k.val, by rw [hl'len]; have := k.isLt; omega⟩
              (fun h => hki h.symm)]
            rw [← hk]
        · intro hbl2
          obtain ⟨j, hj⟩ := List.mem_iff_get.mp hbl2
          by_cases hij : i.val = j.val
          · rw [hgetv1 j hij] at hj
            rw [← hj]
            exact List.get_mem s.issuerList _ _
          · rw [hgetv2 j hij] at hj
            rw [← hj]
            exact List.get_mem s.issuerList _ _
    · intro j
      show setFun (setFun s.issuerIndexPlusOne
          (s.issuerList.getD (s.issuerList.length - 1) 0) (i.val + 1)) a 0
          ((s.issuerList.set i.val
            (s.issuerList.getD (s.issuerList.length - 1) 0)).dropLast.get j) = j.val + 1
      by_cases hij : i.val = j.val
      · rw [hgetv1 j hij]
        rw [setFun_apply, if_neg (hlastget ▸ hlast_ne_a), setFun_apply,
          if_pos hlastget.symm]
        omega
      · rw [hgetv2 j hij]
        have hbne_a : s.issuerList.get ⟨j.val, by have := hjlt j; omega⟩ ≠ a := by
          intro h
          have hfin := hinj (h.trans hia.symm)
          exact hij (congrArg Fin.val hfin).symm
        have hbne_last : ∀ (n : Nat), n < s.issuerList.length - 1 →
            ∀ hn2 : n < s.issuerList.length,
            s.issuerList.get ⟨n, hn2⟩ ≠
            s.issuerList.getD (s.issuerList.length - 1) 0 := by
          intro n hn hn2
          rw [hlastget]
          intro h
          have := congrArg Fin.val (hinj h)
          simp at this
          omega
        rw [setFun_apply, if_neg hbne_a, setFun_apply,
          if_neg (hbne_last j.val (hjlt j) _)]
        exact hidx ⟨j.val, by have := hjlt j; omega⟩

theorem issuerListInv_step (env : Env) (s : RegistryState) (t : Tx)
    (h : IssuerListInv s) : IssuerListInv (applyTx env s t) :=
  applyTx_preserves env IssuerListInv
    (fun u th hu _ => IssuerListInv_congr rfl rfl rfl hu)
    (fun u a hu ha => authorizeAndPush_inv u a hu ha)
    (fun u a hu ha => deauthorizeAndRemove_inv u a hu ha)
    (fun u p hu => IssuerListInv_congr rfl rfl rfl hu)
    (fun u pid a hu => IssuerListInv_congr rfl rfl rfl hu)
    (fun u pid hu => IssuerListInv_congr rfl rfl rfl hu)
    (fun u cid dh uri iss ia salt sig hu _ _ => IssuerListInv_congr rfl rfl rfl hu)
    (fun u cid reason sig now hu _ => IssuerListInv_congr rfl rfl rfl hu)
    (fun u o hu => IssuerListInv_congr rfl rfl rfl hu)
    s t h

/-! ## The deployed state satisfies every invariant -/

theorem initState_issuerListInv (o : Address) : IssuerListInv (initState o) := by
  refine ⟨List.nodup_nil, fun a => by simp [initState], fun i => absurd i.isLt (by simp [initState])⟩

theorem initState_certInvs (o : Address) :
    CertGuardInv (initState o) ∧ CertUniqueInv (initState o) ∧ CertDefaultInv (initState o) := by
  refine ⟨fun id hid => absurd rfl hid, fun id1 id2 h1 _ _ _ => absurd rfl h1,
    fun id _ => rfl⟩

/-! ## Direct failure conditions -/

theorem issue_not_ok_of_guard (env : Env) (s : RegistryState)
    (certificateId docHash : Bytes32) (storageURI : String) (issuer : Address)
    (issuedAt : Nat) (salt : Bytes16) (sig : SigBytes)
    (hg : s.issuedByDocAndIssuer (docIssuerKey docHash issuer) = true) :
    isOk (issueCertificate env s certificateId docHash storageURI issuer issuedAt salt sig)
      = false := by
  by_contra hok
  rw [Bool.not_eq_false, isOk_eq_true_iff] at hok
  obtain ⟨⟨s1, evs⟩, heq⟩ := hok
  have := ((issueCertificate_eq_ok env s certificateId docHash storageURI issuer
    issuedAt salt sig s1 evs).mp heq).2.2.2.2.1
  rw [hg] at this
  cases this

theorem revoke_not_ok_of_not_active (env : Env) (s : RegistryState) (sender : Address)
    (certificateId : Bytes32) (reason : String) (sig : SigBytes) (now : Nat)
    (hs : (s.certificates certificateId).status ≠ Status.active) :
    isOk (revokeCertificate env s sender certificateId reason sig now) = false := by
  by_contra hok
  rw [Bool.not_eq_false, isOk_eq_true_iff] at hok
  obtain ⟨⟨s1, evs⟩, heq⟩ := hok
  exact hs ((revokeCertificate_eq_ok env s sender certificateId reason sig now s1 evs).mp
    heq).1

theorem approve_not_ok_of_approved (s : RegistryState) (sender : Address) (proposalId : Nat)
    (hs : s.issuerUpdateApprovedBy proposalId sender = true) :
    isOk (approveIssuerUpdate s sender proposalId) = false := by
  by_contra hok
  rw [Bool.not_eq_false, isOk_eq_true_iff] at hok
  obtain ⟨⟨s1, evs⟩, heq⟩ := hok
  have := ((approveIssuerUpdate_eq_ok s sender proposalId s1 evs).mp heq).2.2.2.1
  rw [hs] at this
  cases this

theorem applyTx_issue_ok_guard (env : Env) (s : RegistryState)
    (certificateId docHash : Bytes32) (storageURI : String) (issuer : Address)
    (issuedAt : Nat) (salt : Bytes16) (sig : SigBytes)
    (hok : isOk (issueCertificate env s certificateId docHash storageURI issuer
      issuedAt salt sig) = true) :
    (applyTx env s (Tx.issueCertificate certificateId docHash storageURI issuer
      issuedAt salt sig)).issuedByDocAndIssuer (docIssuerKey docHash issuer) = true := by
  rw [isOk_eq_true_iff] at hok
  obtain ⟨⟨s1, evs⟩, heq⟩ := hok
  have hshape := ((issueCertificate_eq_ok env s certificateId docHash storageURI issuer
    issuedAt salt sig s1 evs).mp heq).2.2.2.2.2.2.2.1
  have happ : applyTx env s (Tx.issueCertificate certificateId docHash storageURI issuer
      issuedAt salt sig) = s1 := by
    simp [applyTx, stepTx, heq]
  rw [happ, hshape]
  show setFun s.issuedByDocAndIssuer (docIssuerKey docHash issuer) true
    (docIssuerKey docHash issuer) = true
  rw [setFun_apply, if_pos rfl]

/-! ## Claim theorems -/

/-- C10: `issuerUpdateThreshold` is initialized to 1 and
`setIssuerUpdateThreshold` rejects zero, so every state reachable from
deployment by any transaction sequence has `issuerUpdateThreshold ≥ 1`;
consequently a proposal with zero approvals can never be executed. -/
theorem c10_threshold_always_positive (env : Env) (initialOwner : Address) (txs : List Tx) :
    1 ≤ (applyTxs env (initState initialOwner) txs).issuerUpdateThreshold ∧
    (∀ sender proposalId,
      ((applyTxs env (initState initialOwner) txs).issuerUpdateProposals
        proposalId).approvals = 0 →
      isOk (executeIssuerUpdate (applyTxs env (initState initialOwner) txs)
        sender proposalId) = false) := by
  have hthr : 1 ≤ (applyTxs env (initState initialOwner) txs).issuerUpdateThreshold :=
    applyTxs_invariant env (fun u t hu => threshold_ge_one_step env u t hu) txs
      (initState initialOwner) (le_refl 1)
  refine ⟨hthr, ?_⟩
  intro sender proposalId h0
  by_contra hok
  rw [Bool.not_eq_false, isOk_eq_true_iff] at hok
  obtain ⟨⟨s1, evs⟩, heq⟩ := hok
  have hc := ((executeIssuerUpdate_eq_ok _ sender proposalId s1 evs).mp heq).2.2.2.1
  rw [h0] at hc
  omega

theorem c10_witness :
    ((applyTxs sampleEnv (initState 1) []).issuerUpdateProposals 0).approvals = 0 ∧
    isOk (executeIssuerUpdate (applyTxs sampleEnv (initState 1) []) 1 0) = false :=
  ⟨by decide, (c10_threshold_always_positive sampleEnv 1 []).2 1 0 (by decide)⟩

/-- C9: `getCertificate` and `certificateStatus` are total reads of the
certificate mapping; in every reachable state, an identifier whose status is
still None reads back as the zero-valued default record, so absence is
observable only through the None status. -/
theorem c9_default_for_absent (env : Env) (initialOwner : Address) (txs : List Tx)
    (certificateId : Bytes32) :
    certificateStatus (applyTxs env (initState initialOwner) txs) certificateId =
        Status.none →
    getCertificate (applyTxs env (initState initialOwner) txs) certificateId =
      defaultCertificate := by
  intro hstat
  exact applyTxs_invariant env (fun u t hu => certDefault_step env u t hu) txs
    (initState initialOwner) (initState_certInvs initialOwner).2.2 certificateId hstat

theorem c9_witness :
    getCertificate (applyTxs sampleEnv (initState 1) [Tx.addIssuer 1 2]) 99 =
      defaultCertificate :=
  c9_default_for_absent sampleEnv 1 [Tx.addIssuer 1 2] 99 (by decide)

/-- C3: the certificate status only moves forward along
None → Active → Revoked under every transaction and every transaction
sequence (so nothing moves a record from Revoked back to Active, from Active
back to None, or deletes it); moreover `issueCertificate` succeeds only from
status None and `revokeCertificate` only from status Active. -/
theorem c3_status_monotonic (env : Env) (s : RegistryState) (certificateId : Bytes32) :
    (∀ t, statusRank (certificateStatus s certificateId) ≤
      statusRank (certificateStatus (applyTx env s t) certificateId)) ∧
    (∀ txs, statusRank (certificateStatus s certificateId) ≤
      statusRank (certificateStatus (applyTxs env s txs) certificateId)) ∧
    (∀ docHash storageURI issuer issuedAt salt sig,
      isOk (issueCertificate env s certificateId docHash storageURI issuer
        issuedAt salt sig) = true →
      certificateStatus s certificateId = Status.none) ∧
    (∀ sender reason sig now,
      isOk (revokeCertificate env s sender certificateId reason sig now) = true →
      certificateStatus s certificateId = Status.active) := by
  refine ⟨fun t => statusRank_step env s t certificateId, ?_, ?_, ?_⟩
  · intro txs
    exact applyTxs_invariant env
      (fun u t hu => Nat.le_trans hu (statusRank_step env u t certificateId)) txs s (le_refl _)
  · intro dh uri iss ia salt sig hok
    rw [isOk_eq_true_iff] at hok
    obtain ⟨⟨s1, evs⟩, heq⟩ := hok
    exact ((issueCertificate_eq_ok env s certificateId dh uri iss ia salt sig s1 evs).mp
      heq).2.1
  · intro sender reason sig now hok
    rw [isOk_eq_true_iff] at hok
    obtain ⟨⟨s1, evs⟩, heq⟩ := hok
    exact ((revokeCertificate_eq_ok env s sender certificateId reason sig now s1 evs).mp
      heq).1

theorem c3_witness :
    certificateStatus (applyTx sampleEnv (initState 1) (Tx.addIssuer 1 2))
      (deriveCertificateId 5 3 2 1 7) = Status.none :=
  (c3_status_monotonic sampleEnv (applyTx sampleEnv (initState 1) (Tx.addIssuer 1 2))
    (deriveCertificateId 5 3 2 1 7)).2.2.1 5 "u" 2 7 3 [2] (by decide)

/-- C1: after any transaction sequence from deployment, at most one
Active-or-Revoked certificate record exists per `(docHash, issuer)` pair;
and once an `issueCertificate` call has succeeded for a pair, every later
`issueCertificate` call with the same `docHash` and `issuer` fails — with
any salt, timestamp or certificate id, and no intervening transactions
(revocations included) re-enable issuance for that pair. -/
theorem c1_at_most_one_issuance (env : Env) (initialOwner : Address) (txs : List Tx) :
    (∀ id1 id2,
      ((applyTxs env (initState initialOwner) txs).certificates id1).status ≠ Status.none →
      ((applyTxs env (initState initialOwner) txs).certificates id2).status ≠ Status.none →
      ((applyTxs env (initState initialOwner) txs).certificates id1).docHash =
        ((applyTxs env (initState initialOwner) txs).certificates id2).docHash →
      ((applyTxs env (initState initialOwner) txs).certificates id1).issuer =
        ((applyTxs env (initState initialOwner) txs).certificates id2).issuer →
      id1 = id2) ∧
    (∀ certificateId docHash storageURI issuer issuedAt salt sig,
      isOk (issueCertificate env (applyTxs env (initState initialOwner) txs)
        certificateId docHash storageURI issuer issuedAt salt sig) = true →
      ∀ txs2 certificateId2 storageURI2 issuedAt2 salt2 sig2,
        isOk (issueCertificate env
          (applyTxs env
            (applyTx env (applyTxs env (initState initialOwner) txs)
              (Tx.issueCertificate certificateId docHash storageURI issuer
                issuedAt salt sig))
            txs2)
          certificateId2 docHash storageURI2 issuer issuedAt2 salt2 sig2) = false) := by
  constructor
  · have hinv := applyTxs_invariant env (fun u t hu => certPair_step env u t hu) txs
      (initState initialOwner)
      ⟨(initState_certInvs initialOwner).1, (initState_certInvs initialOwner).2.1⟩
    exact hinv.2
  · intro cid dh uri iss ia salt sig hok txs2 cid2 uri2 ia2 salt2 sig2
    have hg1 := applyTx_issue_ok_guard env _ cid dh uri iss ia salt sig hok
    have hg2 := applyTxs_invariant env
      (fun u t hu => guard_true_step env u t (docIssuerKey dh iss) hu) txs2 _ hg1
    exact issue_not_ok_of_guard env _ cid2 dh uri2 iss ia2 salt2 sig2 hg2

theorem c1_witness :
    isOk (issueCertificate sampleEnv
      (applyTxs sampleEnv
        (applyTx sampleEnv (applyTxs sampleEnv (initState 1) [Tx.addIssuer 1 2])
          (Tx.issueCertificate (deriveCertificateId 5 3 2 1 7) 5 "u" 2 7 3 [2]))
        [Tx.revokeCertificate 2 (deriveCertificateId 5 3 2 1 7) "err" [2] 9])
      (deriveCertificateId 5 4 2 1 8) 5 "u2" 2 8 4 [2]) = false :=
  (c1_at_most_one_issuance sampleEnv 1 [Tx.addIssuer 1 2]).2
    (deriveCertificateId 5 3 2 1 7) 5 "u" 2 7 3 [2] (by decide)
    [Tx.revokeCertificate 2 (deriveCertificateId 5 3 2 1 7) "err" [2] 9]
    (deriveCertificateId 5 4 2 1 8) "u2" 8 4 [2]

/-- C7: after every sequence of transactions from deployment, allow-list
membership and enumeration-list membership agree: an address is flagged
authorized iff it occurs exactly once in `issuerList`, and a non-authorized
address does not occur at all — the swap-with-last-then-pop removal loses no
surviving entry. -/
theorem c7_allowlist_list_consistent (env : Env) (initialOwner : Address)
    (txs : List Tx) (a : Address) :
    ((applyTxs env (initState initialOwner) txs).isAuthorizedIssuer a = true ↔
      (applyTxs env (initState initialOwner) txs).issuerList.count a = 1) ∧
    ((applyTxs env (initState initialOwner) txs).isAuthorizedIssuer a = false ↔
      (applyTxs env (initState initialOwner) txs).issuerList.count a = 0) := by
  obtain ⟨hnd, hmem, hidx⟩ := applyTxs_invariant env
    (fun u t hu => issuerListInv_step env u t hu) txs (initState initialOwner)
    (initState_issuerListInv initialOwner)
  constructor
  · constructor
    · intro h
      exact List.count_eq_one_of_mem hnd ((hmem a).mp h)
    · intro h
      exact (hmem a).mpr (List.count_pos_iff_mem.mp (by omega))
  · constructor
    · intro h
      rw [List.count_eq_zero]
      intro hmem2
      have := (hmem a).mpr hmem2
      rw [h] at this
      cases this
    · intro h
      rw [List.count_eq_zero] at h
      cases hb : (applyTxs env (initState initialOwner) txs).isAuthorizedIssuer a
      · rfl
      · exact absurd ((hmem a).mp hb) h

theorem c7_witness :
    (applyTxs sampleEnv (initState 1)
      [Tx.addIssuer 1 2, Tx.addIssuer 1 3, Tx.removeIssuer 1 2]).issuerList.count 3 = 1 :=
  (c7_allowlist_list_consistent sampleEnv 1
    [Tx.addIssuer 1 2, Tx.addIssuer 1 3, Tx.removeIssuer 1 2] 3).1.mp (by decide)

/-- C2: `issueCertificate` succeeds iff all seven preconditions hold
(authorized issuer, empty slot at the id, nonempty `storageURI`,
positive `issuedAt`, fresh `(docHash, issuer)` pair, id equal to the
derived identifier, signature recovering to the issuer); on success it
writes exactly the Active record, marks the duplicate guard and emits the
issuance event; on failure the state is unchanged. -/
theorem c2_issue_correct (env : Env) (s : RegistryState)
    (certificateId docHash : Bytes32) (storageURI : String) (issuer : Address)
    (issuedAt : Nat) (salt : Bytes16) (sig : SigBytes) :
    (isOk (issueCertificate env s certificateId docHash storageURI issuer issuedAt salt
        sig) = true ↔
      (s.isAuthorizedIssuer issuer = true ∧
       (s.certificates certificateId).status = Status.none ∧
       storageURI.utf8ByteSize ≠ 0 ∧ 0 < issuedAt ∧
       s.issuedByDocAndIssuer (docIssuerKey docHash issuer) = false ∧
       deriveCertificateId docHash salt issuer env.chainId issuedAt = certificateId ∧
       env.recoverIssueSigner
         { certificateId := certificateId, docHash := docHash, storageURI := storageURI,
           issuer := issuer, issuedAt := issuedAt, chainId := env.chainId, salt := salt }
         sig = Option.some issuer)) ∧
    (∀ s' evs,
      issueCertificate env s certificateId docHash storageURI issuer issuedAt salt sig =
        .ok (s', evs) →
      s'.certificates certificateId =
        { docHash := docHash, storageURI := storageURI, issuer := issuer,
          issuedAt := issuedAt, status := Status.active, revokeReason := "",
          revokedAt := 0, issuerSignature := sig, salt := salt,
          revokeSignature := [] } ∧
      s'.issuedByDocAndIssuer (docIssuerKey docHash issuer) = true ∧
      (∀ id, id ≠ certificateId → s'.certificates id = s.certificates id) ∧
      evs = [Event.CertificateIssued certificateId issuer docHash storageURI
        issuedAt salt]) ∧
    (isOk (issueCertificate env s certificateId docHash storageURI issuer issuedAt salt
        sig) = false →
      applyTx env s (Tx.issueCertificate certificateId docHash storageURI issuer
        issuedAt salt sig) = s) := by
  refine ⟨?_, ?_, ?_⟩
  · rw [isOk_eq_true_iff]
    constructor
    · rintro ⟨⟨s1, evs⟩, heq⟩
      obtain ⟨h1, h2, h3, h4, h5, h6, h7, -, -⟩ :=
        (issueCertificate_eq_ok env s certificateId docHash storageURI issuer issuedAt
          salt sig s1 evs).mp heq
      exact ⟨h1, h2, h3, Nat.pos_of_ne_zero h4, h5, h6, h7⟩
    · rintro ⟨h1, h2, h3, h4, h5, h6, h7⟩
      exact ⟨_, (issueCertificate_eq_ok env s certificateId docHash storageURI issuer
        issuedAt salt sig _ _).mpr
        ⟨h1, h2, h3, Nat.pos_iff_ne_zero.mp h4, h5, h6, h7, rfl, rfl⟩⟩
  · intro s' evs heq
    obtain ⟨-, -, -, -, -, -, -, hs, he⟩ :=
      (issueCertificate_eq_ok env s certificateId docHash storageURI issuer issuedAt
        salt sig s' evs).mp heq
    subst hs
    refine ⟨?_, ?_, ?_, he⟩
    · show setFun s.certificates certificateId _ certificateId = _
      rw [setFun_apply, if_pos rfl]
    · show setFun s.issuedByDocAndIssuer (docIssuerKey docHash issuer) true
        (docIssuerKey docHash issuer) = true
      rw [setFun_apply, if_pos rfl]
    · intro id hid
      show setFun s.certificates certificateId _ id = s.certificates id
      rw [setFun_apply, if_neg hid]
  · intro hfail
    cases hr : stepTx env s (Tx.issueCertificate certificateId docHash storageURI issuer
        issuedAt salt sig) with
    | error e => simp [applyTx, hr]
    | ok p =>
      exfalso
      simp only [stepTx] at hr
      rw [hr] at hfail
      cases hfail

theorem c2_witness :
    isOk (issueCertificate sampleEnv (applyTx sampleEnv (initState 1) (Tx.addIssuer 1 2))
      (deriveCertificateId 5 3 2 1 7) 5 "u" 2 7 3 [2]) = true :=
  (c2_issue_correct sampleEnv (applyTx sampleEnv (initState 1) (Tx.addIssuer 1 2))
    (deriveCertificateId 5 3 2 1 7) 5 "u" 2 7 3 [2]).1.mpr (by decide)

/-- C5: a successful `revokeCertificate` implies: the record was Active, the
caller was the owner or the record's issuer, the reason is 1–256 bytes, and
the signature recovered to the record's issuer over the revocation payload;
afterwards the record is Revoked with the reason, timestamp and signature
stored, and every second revocation of the same certificate fails because
the status is no longer Active. -/
theorem c5_revoke_spec (env : Env) (s : RegistryState) (sender : Address)
    (certificateId : Bytes32) (reason : String) (sig : SigBytes) (now : Nat) :
    isOk (revokeCertificate env s sender certificateId reason sig now) = true →
      ((s.certificates certificateId).status = Status.active ∧
       (sender = s.owner ∨ sender = (s.certificates certificateId).issuer) ∧
       0 < reason.utf8ByteSize ∧ reason.utf8ByteSize ≤ 256 ∧
       env.recoverRevokeSigner
         { certificateId := certificateId, reason := reason,
           issuer := (s.certificates certificateId).issuer, chainId := env.chainId }
         sig = Option.some (s.certificates certificateId).issuer ∧
       (((applyTx env s (Tx.revokeCertificate sender certificateId reason sig now)
          ).certificates certificateId).status = Status.revoked ∧
        ((applyTx env s (Tx.revokeCertificate sender certificateId reason sig now)
          ).certificates certificateId).revokeReason = reason ∧
        ((applyTx env s (Tx.revokeCertificate sender certificateId reason sig now)
          ).certificates certificateId).revokedAt = now ∧
        ((applyTx env s (Tx.revokeCertificate sender certificateId reason sig now)
          ).certificates certificateId).revokeSignature = sig) ∧
       (∀ sender2 reason2 sig2 now2,
         isOk (revokeCertificate env
           (applyTx env s (Tx.revokeCertificate sender certificateId reason sig now))
           sender2 certificateId reason2 sig2 now2) = false)) := by
  intro hok
  rw [isOk_eq_true_iff] at hok
  obtain ⟨⟨s1, evs⟩, heq⟩ := hok
  obtain ⟨h1, h2, h3, h4, h5, h6, h7, h8⟩ :=
    (revokeCertificate_eq_ok env s sender certificateId reason sig now s1 evs).mp heq
  have happ : applyTx env s (Tx.revokeCertificate sender certificateId reason sig now) =
      s1 := by
    simp [applyTx, stepTx, heq]
  have happ2 := happ.trans h7
  refine ⟨h1, h2, Nat.pos_of_ne_zero h3, h4, h6, ?_, ?_⟩
  · rw [happ2]
    refine ⟨?_, ?_, ?_, ?_⟩
    · show (setFun s.certificates certificateId
        { s.certificates certificateId with
          status := Status.revoked, revokeReason := reason,
          revokedAt := now, revokeSignature := sig } certificateId).status = Status.revoked
      rw [setFun_apply, if_pos rfl]
    · show (setFun s.certificates certificateId
        { s.certificates certificateId with
          status := Status.revoked, revokeReason := reason,
          revokedAt := now, revokeSignature := sig } certificateId).revokeReason = reason
      rw [setFun_apply, if_pos rfl]
    · show (setFun s.certificates certificateId
        { s.certificates certificateId with
          status := Status.revoked, revokeReason := reason,
          revokedAt := now, revokeSignature := sig } certificateId).revokedAt = now
      rw [setFun_apply, if_pos rfl]
    · show (setFun s.certificates certificateId
        { s.certificates certificateId with
          status := Status.revoked, revokeReason := reason,
          revokedAt := now, revokeSignature := sig } certificateId).revokeSignature = sig
      rw [setFun_apply, if_pos rfl]
  · intro sender2 reason2 sig2 now2
    rw [happ2]
    apply revoke_not_ok_of_not_active
    show (setFun s.certificates certificateId
      { s.certificates certificateId with
        status := Status.revoked, revokeReason := reason,
        revokedAt := now, revokeSignature := sig } certificateId).status ≠ Status.active
    rw [setFun_apply, if_pos rfl]
    simp

theorem c5_witness :
    ((applyTxs sampleEnv (initState 1)
      [Tx.addIssuer 1 2,
       Tx.issueCertificate (deriveCertificateId 5 3 2 1 7) 5 "u" 2 7 3 [2]]).certificates
      (deriveCertificateId 5 3 2 1 7)).status = Status.active :=
  (c5_revoke_spec sampleEnv
    (applyTxs sampleEnv (initState 1)
      [Tx.addIssuer 1 2,
       Tx.issueCertificate (deriveCertificateId 5 3 2 1 7) 5 "u" 2 7 3 [2]])
    2 (deriveCertificateId 5 3 2 1 7) "err" [2] 9 (by decide)).1

/-- C6: `approveIssuerUpdate` succeeds iff the caller is a currently
authorized issuer, the proposal exists, is not executed and was not already
approved by this caller; a successful approval increments the count by
exactly one and records the approver, after which a second approval of the
same proposal by the same approver is rejected rather than double-counted. -/
theorem c6_approve_exactly_once (s : RegistryState) (sender : Address) (proposalId : Nat) :
    (isOk (approveIssuerUpdate s sender proposalId) = true ↔
      (s.isAuthorizedIssuer sender = true ∧
       (s.issuerUpdateProposals proposalId).action ≠ IssuerUpdateAction.none ∧
       (s.issuerUpdateProposals proposalId).executed = false ∧
       s.issuerUpdateApprovedBy proposalId sender = false)) ∧
    (∀ s' evs, approveIssuerUpdate s sender proposalId = .ok (s', evs) →
      (s'.issuerUpdateProposals proposalId).approvals =
        (s.issuerUpdateProposals proposalId).approvals + 1 ∧
      s'.issuerUpdateApprovedBy proposalId sender = true ∧
      isOk (approveIssuerUpdate s' sender proposalId) = false) := by
  constructor
  · rw [isOk_eq_true_iff]
    constructor
    · rintro ⟨⟨s1, evs⟩, heq⟩
      have h := (approveIssuerUpdate_eq_ok s sender proposalId s1 evs).mp heq
      exact ⟨h.1, h.2.1, h.2.2.1, h.2.2.2.1⟩
    · rintro ⟨h1, h2, h3, h4⟩
      exact ⟨_, (approveIssuerUpdate_eq_ok s sender proposalId _ _).mpr
        ⟨h1, h2, h3, h4, rfl, rfl⟩⟩
  · intro s' evs heq
    obtain ⟨h1, h2, h3, h4, h5, h6⟩ :=
      (approveIssuerUpdate_eq_ok s sender proposalId s' evs).mp heq
    subst h5
    refine ⟨?_, ?_, ?_⟩
    · show (setFun s.issuerUpdateProposals proposalId _ proposalId).approvals = _
      rw [setFun_apply, if_pos rfl]
    · show setFun2 s.issuerUpdateApprovedBy proposalId sender true proposalId sender = true
      rw [setFun2_apply, if_pos ⟨rfl, rfl⟩]
    · apply approve_not_ok_of_approved
      show setFun2 s.issuerUpdateApprovedBy proposalId sender true proposalId sender = true
      rw [setFun2_apply, if_pos ⟨rfl, rfl⟩]

theorem c6_witness :
    isOk (approveIssuerUpdate (applyTxs sampleEnv (initState 1)
      [Tx.addIssuer 1 3, Tx.proposeAddIssuer 1 2 10]) 3 1) = true :=
  (c6_approve_exactly_once (applyTxs sampleEnv (initState 1)
    [Tx.addIssuer 1 3, Tx.proposeAddIssuer 1 2 10]) 3 1).1.mpr (by decide)

/-- C8: revocation authorization is checked against the issuer stored in the
certificate record, never against the current allow-list: the success or
failure of `revokeCertificate` is invariant under arbitrary replacement of
`isAuthorizedIssuer`, and a caller equal to the record's issuer succeeds
even when that issuer has been removed from the allow-list. -/
theorem c8_revoke_ignores_allowlist (env : Env) (s : RegistryState) (sender : Address)
    (certificateId : Bytes32) (reason : String) (sig : SigBytes) (now : Nat)
    (f : Address → Bool) :
    (isOk (revokeCertificate env { s with isAuthorizedIssuer := f } sender certificateId
        reason sig now) =
      isOk (revokeCertificate env s sender certificateId reason sig now)) ∧
    ((s.certificates certificateId).status = Status.active →
     sender = (s.certificates certificateId).issuer →
     s.isAuthorizedIssuer (s.certificates certificateId).issuer = false →
     0 < reason.utf8ByteSize → reason.utf8ByteSize ≤ 256 → sig ≠ [] →
     env.recoverRevokeSigner
       { certificateId := certificateId, reason := reason,
         issuer := (s.certificates certificateId).issuer, chainId := env.chainId } sig =
       Option.some (s.certificates certificateId).issuer →
     isOk (revokeCertificate env s sender certificateId reason sig now) = true) := by
  constructor
  · simp only [revokeCertificate]
    (repeat' split) <;> simp_all [isOk]
  · intro h1 h2 h3 h4 h5 h6 h7
    rw [isOk_eq_true_iff]
    exact ⟨_, (revokeCertificate_eq_ok env s sender certificateId reason sig now _ _).mpr
      ⟨h1, Or.inr h2, Nat.pos_iff_ne_zero.mp h4, h5, h6, h7, rfl, rfl⟩⟩

theorem c8_witness :
    isOk (revokeCertificate sampleEnv
      (applyTxs sampleEnv (initState 1)
        [Tx.addIssuer 1 2,
         Tx.issueCertificate (deriveCertificateId 5 3 2 1 7) 5 "u" 2 7 3 [2],
         Tx.removeIssuer 1 2])
      2 (deriveCertificateId 5 3 2 1 7) "err" [2] 9) = true :=
  (c8_revoke_ignores_allowlist sampleEnv
    (applyTxs sampleEnv (initState 1)
      [Tx.addIssuer 1 2,
       Tx.issueCertificate (deriveCertificateId 5 3 2 1 7) 5 "u" 2 7 3 [2],
       Tx.removeIssuer 1 2])
    2 (deriveCertificateId 5 3 2 1 7) "err" [2] 9 (fun _ => false)).2
    (by decide) (by decide) (by decide) (by decide) (by decide) (by decide) (by decide)

/-- C4 counterexample: a reachable state in which the owner executes an
existing, unexecuted Add proposal whose approvals meet the current
threshold, yet `executeIssuerUpdate` fails — because the target issuer was
meanwhile authorized directly and the re-validation rejects it.  This
refutes "execute succeeds iff approvals ≥ threshold at execution time". -/
theorem c4_counterexample :
    ((applyTxs sampleEnv (initState 1)
        [Tx.addIssuer 1 3, Tx.proposeAddIssuer 1 2 10,
         Tx.approveIssuerUpdate 3 1, Tx.addIssuer 1 2]).owner = 1 ∧
     ((applyTxs sampleEnv (initState 1)
        [Tx.addIssuer 1 3, Tx.proposeAddIssuer 1 2 10,
         Tx.approveIssuerUpdate 3 1, Tx.addIssuer 1 2]).issuerUpdateProposals 1).action ≠
        IssuerUpdateAction.none ∧
     ((applyTxs sampleEnv (initState 1)
        [Tx.addIssuer 1 3, Tx.proposeAddIssuer 1 2 10,
         Tx.approveIssuerUpdate 3 1, Tx.addIssuer 1 2]).issuerUpdateProposals 1).executed =
        false ∧
     (applyTxs sampleEnv (initState 1)
        [Tx.addIssuer 1 3, Tx.proposeAddIssuer 1 2 10,
         Tx.approveIssuerUpdate 3 1, Tx.addIssuer 1 2]).issuerUpdateThreshold ≤
       ((applyTxs sampleEnv (initState 1)
        [Tx.addIssuer 1 3, Tx.proposeAddIssuer 1 2 10,
         Tx.approveIssuerUpdate 3 1, Tx.addIssuer 1 2]).issuerUpdateProposals 1).approvals ∧
     isOk (executeIssuerUpdate (applyTxs sampleEnv (initState 1)
        [Tx.addIssuer 1 3, Tx.proposeAddIssuer 1 2 10,
         Tx.approveIssuerUpdate 3 1, Tx.addIssuer 1 2]) 1 1) = false) := by
  decide

/-- C4 (amended): `executeIssuerUpdate` succeeds iff, at execution time, the
caller is the owner, the proposal exists and is not yet executed, its
approvals meet the *current* `issuerUpdateThreshold`, and the action's
re-validated preconditions hold (Add: nonzero, not-yet-authorized target;
Rotate: authorized old issuer and nonzero, not-yet-authorized target); in
particular every call on a proposal with approvals below the current
threshold fails. -/
theorem c4_execute_succeeds_iff (s : RegistryState) (sender : Address) (proposalId : Nat) :
    isOk (executeIssuerUpdate s sender proposalId) = true ↔
      (sender = s.owner ∧
       (s.issuerUpdateProposals proposalId).action ≠ IssuerUpdateAction.none ∧
       (s.issuerUpdateProposals proposalId).executed = false ∧
       s.issuerUpdateThreshold ≤ (s.issuerUpdateProposals proposalId).approvals ∧
       ((s.issuerUpdateProposals proposalId).action = IssuerUpdateAction.add →
         (s.issuerUpdateProposals proposalId).newIssuer ≠ 0 ∧
         s.isAuthorizedIssuer (s.issuerUpdateProposals proposalId).newIssuer = false) ∧
       ((s.issuerUpdateProposals proposalId).action = IssuerUpdateAction.rotate →
         s.isAuthorizedIssuer (s.issuerUpdateProposals proposalId).issuer = true ∧
         (s.issuerUpdateProposals proposalId).newIssuer ≠ 0 ∧
         s.isAuthorizedIssuer (s.issuerUpdateProposals proposalId).newIssuer = false)) := by
  rw [isOk_eq_true_iff]
  constructor
  · rintro ⟨⟨s1, evs⟩, heq⟩
    obtain ⟨h1, h2, h3, h4, hact⟩ :=
      (executeIssuerUpdate_eq_ok s sender proposalId s1 evs).mp heq
    refine ⟨h1, h2, h3, h4, ?_, ?_⟩
    · intro hadd
      rcases hact with ⟨-, hz, hna, -, -⟩ | ⟨hrot, -, -, -, -, -⟩
      · exact ⟨hz, hna⟩
      · rw [hadd] at hrot
        cases hrot
    · intro hrot2
      rcases hact with ⟨hadd, -, -, -, -⟩ | ⟨-, ho, hz, hna, -, -⟩
      · rw [hrot2] at hadd
        cases hadd
      · exact ⟨ho, hz, hna⟩
  · rintro ⟨h1, h2, h3, h4, hadds, hrots⟩
    cases hac : (s.issuerUpdateProposals proposalId).action with
    | none => exact absurd hac h2
    | add =>
      obtain ⟨hz, hna⟩ := hadds hac
      exact ⟨_, (executeIssuerUpdate_eq_ok s sender proposalId _ _).mpr
        ⟨h1, h2, h3, h4, Or.inl ⟨hac, hz, hna, rfl, rfl⟩⟩⟩
    | rotate =>
      obtain ⟨ho, hz, hna⟩ := hrots hac
      exact ⟨_, (executeIssuerUpdate_eq_ok s sender proposalId _ _).mpr
        ⟨h1, h2, h3, h4, Or.inr ⟨hac, ho, hz, hna, rfl, rfl⟩⟩⟩

theorem c4_witness :
    isOk (executeIssuerUpdate (applyTxs sampleEnv (initState 1)
      [Tx.addIssuer 1 3, Tx.proposeAddIssuer 1 2 10, Tx.approveIssuerUpdate 3 1]) 1 1) =
      true :=
  (c4_execute_succeeds_iff (applyTxs sampleEnv (initState 1)
    [Tx.addIssuer 1 3, Tx.proposeAddIssuer 1 2 10, Tx.approveIssuerUpdate 3 1]) 1 1).mpr
    (by decide)

end CertificateRegistry
